import Mathlib

/-!
Verification of the TorchBox repository core: a shallow embedding of the
Crucible variable store (src/tinder/crucible.py), the PEG rule primitives
(src/firestarter/grammar.py), the Tinder kindling operations and runtime
loop (src/tinder/__init__.py) and the tagged-union serializer
(src/torchbox/serializer.py), with theorems settling the stated properties
of these components.

Python values are modelled by the inductive `PyVal`; Python floats keep the
four observationally distinct classes (finite value, two infinities, NaN);
machine floats do not otherwise matter to the translated code because none
of it performs float arithmetic that the properties touch.
-/

set_option maxRecDepth 4000
set_option maxHeartbeats 1000000

/-- A Python float: a finite value (as an exact rational), one of the two
infinities, or NaN.  The serializer and the crucible never compute with
floats, so this classification captures everything the code observes,
including the fact that NaN compares unequal to itself. -/
inductive PyFloat where
  | fin (q : Rat)
  | inf
  | ninf
  | nan
deriving DecidableEq, Repr

/-- A dictionary key or path component: Python code in this repository uses
strings and ints as keys and indices. -/
inductive Key where
  | s (k : String)
  | i (n : Int)
deriving DecidableEq, Repr

/-- A Python value of the shapes the translated code stores and moves:
None, bool, int, float, str, list, tuple, and dict. -/
inductive PyVal where
  | none
  | bool (b : Bool)
  | int (n : Int)
  | float (x : PyFloat)
  | str (s : String)
  | list (xs : List PyVal)
  | tuple (xs : List PyVal)
  | dict (d : List (Key × PyVal))
deriving Repr

/-- Python dict lookup on an association list (first binding wins). -/
def lookupKey (k : Key) : List (Key × PyVal) → Option PyVal
  | [] => Option.none
  | (k2, v) :: rest => if k = k2 then some v else lookupKey k rest

/-- Python dict assignment `d[k] = v`: replace the first binding of `k`,
or append a new binding when `k` is absent (insertion order). -/
def insertKey (k : Key) (v : PyVal) : List (Key × PyVal) → List (Key × PyVal)
  | [] => [(k, v)]
  | (k2, w) :: rest => if k = k2 then (k, v) :: rest else (k2, w) :: insertKey k v rest

/-- The numeric reading of a value for Python `==`: bools are 0/1, ints and
finite floats are exact rationals, infinities and NaN are kept apart. -/
inductive NumV where
  | q (r : Rat)
  | pinf
  | ninf
  | nan
deriving DecidableEq

/-- The numeric reading of a value, `some` exactly for bool/int/float. -/
def toNum : PyVal → Option NumV
  | .bool b => some (.q (if b then 1 else 0))
  | .int n => some (.q n)
  | .float (.fin r) => some (.q r)
  | .float .inf => some .pinf
  | .float .ninf => some .ninf
  | .float .nan => some .nan
  | _ => Option.none

/-- Python `==` on two numbers: exact values compare by value, each infinity
equals itself, NaN equals nothing (itself included). -/
def numEq : NumV → NumV → Bool
  | .q a, .q b => a = b
  | .pinf, .pinf => true
  | .ninf, .ninf => true
  | _, _ => false

mutual

/-- Python `==` on values: numeric cross-type equality, strings by content,
lists and tuples pairwise (never equal to each other), dicts by size and
per-key equal values, None only to None. -/
def pyEq (a b : PyVal) : Bool :=
  match toNum a, toNum b with
  | some x, some y => numEq x y
  | _, _ =>
    match a, b with
    | .none, .none => true
    | .str s, .str t => s = t
    | .list xs, .list ys => pyEqList xs ys
    | .tuple xs, .tuple ys => pyEqList xs ys
    | .dict d, .dict e => d.length = e.length && pyEqEntries d e
    | _, _ => false

/-- Pairwise Python `==` over two sequences of equal length. -/
def pyEqList (xs ys : List PyVal) : Bool :=
  match xs, ys with
  | [], [] => true
  | x :: xs, y :: ys => pyEq x y && pyEqList xs ys
  | _, _ => false

/-- Every binding of the first dict is present in the second with an equal
value (jointly with the size test this is Python dict equality). -/
def pyEqEntries (d e : List (Key × PyVal)) : Bool :=
  match d with
  | [] => true
  | (k, v) :: rest =>
    match lookupKey k e with
    | some w => pyEq v w && pyEqEntries rest e
    | Option.none => false

end

mutual

/-- The value contains no NaN float anywhere. -/
def noNaN : PyVal → Bool
  | .float .nan => false
  | .list xs => noNaNList xs
  | .tuple xs => noNaNList xs
  | .dict d => noNaNEntries d
  | _ => true

/-- No element of the list contains a NaN. -/
def noNaNList : List PyVal → Bool
  | [] => true
  | x :: xs => noNaN x && noNaNList xs

/-- No value of the association list contains a NaN. -/
def noNaNEntries : List (Key × PyVal) → Bool
  | [] => true
  | (_, v) :: rest => noNaN v && noNaNEntries rest

end

namespace Torchbox

/-- Errors of torchbox.serializer.deserialize: an unknown type tag
(DeserializationError), or a Python-level error from using the wrong shape
of data (AttributeError and friends). -/
inductive DErr where
  | unknownType
  | badData
deriving DecidableEq, Repr

mutual

/-- torchbox.serializer.serialize: wrap a value as a dict tagged with its
Python type name.  dicts and sequences serialize recursively; a tuple's
payload is a list of the serialized items. -/
def serialize : PyVal → PyVal
  | .none => .dict [(.s "type", .str "NoneType"), (.s "value", .none)]
  | .bool b => .dict [(.s "type", .str "bool"), (.s "value", .bool b)]
  | .int n => .dict [(.s "type", .str "int"), (.s "value", .int n)]
  | .float x => .dict [(.s "type", .str "float"), (.s "value", .float x)]
  | .str s => .dict [(.s "type", .str "str"), (.s "value", .str s)]
  | .list xs => .dict [(.s "type", .str "list"), (.s "value", .list (serializeList xs))]
  | .tuple xs => .dict [(.s "type", .str "tuple"), (.s "value", .list (serializeList xs))]
  | .dict d => .dict [(.s "type", .str "dict"), (.s "value", .dict (serializeEntries d))]

/-- Serialize each item of a list (the list comprehension in serialize). -/
def serializeList : List PyVal → List PyVal
  | [] => []
  | x :: xs => serialize x :: serializeList xs

/-- Serialize each value of a dict, keys unchanged (the dict comprehension). -/
def serializeEntries : List (Key × PyVal) → List (Key × PyVal)
  | [] => []
  | (k, v) :: rest => (k, serialize v) :: serializeEntries rest

end

/-- Python int() applied to the payload of an "int" tag: ints unchanged,
bools to 0/1, finite floats truncate toward zero; anything else the
translated call sites never produce from serialize, and Python would raise
(ValueError/TypeError), modelled as badData. -/
def pyIntOf : PyVal → Except DErr PyVal
  | .int n => .ok (.int n)
  | .bool b => .ok (.int (if b then 1 else 0))
  | .float (.fin r) => .ok (.int (Rat.floor (if r < 0 then -r else r) * (if r < 0 then -1 else 1)))
  | _ => .error .badData

/-- Python float() applied to the payload of a "float" tag: floats (NaN and
infinities included) unchanged, ints and bools widened; other payloads are
modelled as badData (Python would raise for non-numeric strings). -/
def pyFloatOf : PyVal → Except DErr PyVal
  | .float x => .ok (.float x)
  | .int n => .ok (.float (.fin n))
  | .bool b => .ok (.float (.fin (if b then 1 else 0)))
  | _ => .error .badData

/-- Python str() applied to the payload of a "str" tag: strings unchanged,
ints and bools rendered; other payloads (never produced by serialize) are
modelled as badData. -/
def pyStrOf : PyVal → Except DErr PyVal
  | .str s => .ok (.str s)
  | .int n => .ok (.str (toString n))
  | .bool b => .ok (.str (if b then "True" else "False"))
  | _ => .error .badData

/-- Python truthiness, used by bool() on a deserialized payload. -/
def pyTruthy : PyVal → Bool
  | .none => false
  | .bool b => b
  | .int n => n != 0
  | .float (.fin r) => r != 0
  | .float _ => true
  | .str s => s != ""
  | .list [] => false
  | .list _ => true
  | .tuple [] => false
  | .tuple _ => true
  | .dict [] => false
  | .dict _ => true

/-- The value a dict lookup returns sits inside the association list. -/
theorem sizeOf_lookupKey {k : Key} {v : PyVal} :
    ∀ {d : List (Key × PyVal)}, lookupKey k d = some v → sizeOf v < sizeOf d := by
  intro d
  induction d with
  | nil => intro h; simp [lookupKey] at h
  | cons kv rest ih =>
    intro h
    obtain ⟨k2, w⟩ := kv
    rw [lookupKey] at h
    by_cases hk : k = k2
    · simp [hk] at h
      subst h
      simp only [List.cons.sizeOf_spec, Prod.mk.sizeOf_spec]
      omega
    · simp [hk] at h
      have := ih h
      simp only [List.cons.sizeOf_spec, Prod.mk.sizeOf_spec]
      omega

/-- The "value" payload of a tagged dict is smaller than the dict itself. -/
theorem sizeOf_payload (k : Key) (d : List (Key × PyVal)) :
    sizeOf ((lookupKey k d).getD .none) < 1 + sizeOf d := by
  rcases h : lookupKey k d with _ | w
  · simp only [Option.getD]
    cases d <;> simp_arith
  · have := sizeOf_lookupKey h
    simp only [Option.getD]
    omega

mutual

/-- torchbox.serializer.deserialize (with no class registry): dispatch on
the "type" tag of the tagged dict; unknown or missing tags raise
DeserializationError, non-dict data raises at data.get (badData).  The
handling of each tag's "value" payload is split into payload helpers. -/
def deserialize : PyVal → Except DErr PyVal
  | .dict d =>
    match lookupKey (.s "type") d with
    | some (.str "NoneType") => .ok .none
    | some (.str "dict") => deserializeDictPayload ((lookupKey (.s "value") d).getD .none)
    | some (.str "list") => do
      let out ← deserializeSeqPayload ((lookupKey (.s "value") d).getD .none)
      .ok (.list out)
    | some (.str "tuple") => do
      let out ← deserializeSeqPayload ((lookupKey (.s "value") d).getD .none)
      .ok (.tuple out)
    | some (.str "int") => pyIntOf ((lookupKey (.s "value") d).getD .none)
    | some (.str "float") => pyFloatOf ((lookupKey (.s "value") d).getD .none)
    | some (.str "str") => pyStrOf ((lookupKey (.s "value") d).getD .none)
    | some (.str "bool") => .ok (.bool (pyTruthy ((lookupKey (.s "value") d).getD .none)))
    | _ => .error .unknownType
  | _ => .error .badData
termination_by data => (sizeOf data, 1)
decreasing_by
  all_goals simp_wf
  all_goals apply Prod.Lex.left
  all_goals have := sizeOf_payload (Key.s "value") d
  all_goals simp_arith at this ⊢
  all_goals omega

/-- The "dict" tag requires a dict payload and deserializes each value. -/
def deserializeDictPayload : PyVal → Except DErr PyVal
  | .dict entries => do
    let out ← deserializeEntries entries
    .ok (.dict out)
  | _ => .error .badData
termination_by v => (sizeOf v, 0)
decreasing_by all_goals (simp_wf; apply Prod.Lex.left; simp_arith)

/-- The "list" and "tuple" tags require a list payload (serialize stores a
tuple payload as a list) and deserialize each item. -/
def deserializeSeqPayload : PyVal → Except DErr (List PyVal)
  | .list xs => deserializeList xs
  | _ => .error .badData
termination_by v => (sizeOf v, 0)
decreasing_by all_goals (simp_wf; apply Prod.Lex.left; simp_arith)

/-- Deserialize each item of a list payload, propagating the first error. -/
def deserializeList : List PyVal → Except DErr (List PyVal)
  | [] => .ok []
  | x :: xs => do
    let y ← deserialize x
    let ys ← deserializeList xs
    .ok (y :: ys)
termination_by xs => (sizeOf xs, 0)
decreasing_by all_goals (simp_wf; apply Prod.Lex.left; simp_arith)

/-- Deserialize each value of a dict payload, keys unchanged. -/
def deserializeEntries : List (Key × PyVal) → Except DErr (List (Key × PyVal))
  | [] => .ok []
  | (k, v) :: rest => do
    let w ← deserialize v
    let ws ← deserializeEntries rest
    .ok ((k, w) :: ws)
termination_by l => (sizeOf l, 0)
decreasing_by all_goals (simp_wf; apply Prod.Lex.left; simp_arith)

end

end Torchbox

/-- A key occurs among the bindings of an association list. -/
def keyMem (k : Key) : List (Key × PyVal) → Bool
  | [] => false
  | (k2, _) :: rest => k = k2 || keyMem k rest

/-- No key is bound twice (every Python dict satisfies this). -/
def noDupKeys : List (Key × PyVal) → Bool
  | [] => true
  | (k, _) :: rest => !keyMem k rest && noDupKeys rest

mutual

/-- Every dict inside the value has pairwise distinct keys, as every dict a
running Python program builds does. -/
def distinctKeys : PyVal → Bool
  | .list xs => distinctKeysList xs
  | .tuple xs => distinctKeysList xs
  | .dict d => noDupKeys d && distinctKeysEntries d
  | _ => true

/-- distinctKeys for each element of a list. -/
def distinctKeysList : List PyVal → Bool
  | [] => true
  | x :: xs => distinctKeys x && distinctKeysList xs

/-- distinctKeys for each value of an association list. -/
def distinctKeysEntries : List (Key × PyVal) → Bool
  | [] => true
  | (_, v) :: rest => distinctKeys v && distinctKeysEntries rest

end

/-- Membership of a binding makes its key visible to keyMem. -/
theorem keyMem_of_mem {kv : Key × PyVal} :
    ∀ {d : List (Key × PyVal)}, kv ∈ d → keyMem kv.1 d = true := by
  intro d
  induction d with
  | nil => intro h; simp at h
  | cons kv2 rest ih =>
    intro h
    rcases List.mem_cons.mp h with h2 | h2
    · subst h2; simp [keyMem]
    · obtain ⟨k2, v2⟩ := kv2
      simp [keyMem, ih h2]

/-- In a duplicate-free association list every binding is what lookup finds. -/
theorem lookup_self_of_noDup :
    ∀ {d : List (Key × PyVal)}, noDupKeys d = true →
      ∀ kv ∈ d, lookupKey kv.1 d = some kv.2 := by
  intro d
  induction d with
  | nil => intro _ kv h; simp at h
  | cons head rest ih =>
    obtain ⟨k, v⟩ := head
    intro hnd kv hmem
    simp only [noDupKeys, Bool.and_eq_true, Bool.not_eq_true'] at hnd
    rcases List.mem_cons.mp hmem with h | h
    · subst h; simp [lookupKey]
    · have hk : kv.1 ≠ k := by
        intro he
        have hm := keyMem_of_mem h
        rw [he] at hm
        rw [hm] at hnd
        exact absurd hnd.1 (by simp)
      rw [lookupKey, if_neg hk]
      exact ih hnd.2 kv h

namespace Torchbox

mutual

/-- Deserializing a serialized value restores it exactly: every tag
round-trips, tuples come back as tuples, nesting is preserved. -/
theorem deserialize_serialize (x : PyVal) : deserialize (serialize x) = .ok x := by
  cases x with
  | none => simp [serialize, deserialize, lookupKey]
  | bool b => simp [serialize, deserialize, lookupKey, pyTruthy]
  | int n => simp [serialize, deserialize, lookupKey, pyIntOf]
  | float f => simp [serialize, deserialize, lookupKey, pyFloatOf]
  | str s => simp [serialize, deserialize, lookupKey, pyStrOf]
  | list xs =>
    simp [serialize, deserialize, lookupKey, deserializeSeqPayload,
      deserializeList_serializeList xs, Bind.bind, Except.bind]
  | tuple xs =>
    simp [serialize, deserialize, lookupKey, deserializeSeqPayload,
      deserializeList_serializeList xs, Bind.bind, Except.bind]
  | dict d =>
    simp [serialize, deserialize, lookupKey, deserializeDictPayload,
      deserializeEntries_serializeEntries d, Bind.bind, Except.bind]
termination_by (sizeOf x, 1)
decreasing_by
  all_goals simp_wf
  all_goals apply Prod.Lex.left
  all_goals simp_arith

/-- Item-wise round trip for list payloads. -/
theorem deserializeList_serializeList (xs : List PyVal) :
    deserializeList (serializeList xs) = .ok xs := by
  cases xs with
  | nil => simp [serializeList, deserializeList]
  | cons x rest =>
    simp [serializeList, deserializeList, deserialize_serialize x,
      deserializeList_serializeList rest, Bind.bind, Except.bind]
termination_by (sizeOf xs, 0)
decreasing_by
  all_goals simp_wf
  all_goals apply Prod.Lex.left
  all_goals simp_arith

/-- Value-wise round trip for dict payloads. -/
theorem deserializeEntries_serializeEntries (d : List (Key × PyVal)) :
    deserializeEntries (serializeEntries d) = .ok d := by
  cases d with
  | nil => simp [serializeEntries, deserializeEntries]
  | cons kv rest =>
    obtain ⟨k, v⟩ := kv
    simp [serializeEntries, deserializeEntries, deserialize_serialize v,
      deserializeEntries_serializeEntries rest, Bind.bind, Except.bind]
termination_by (sizeOf d, 0)
decreasing_by
  all_goals simp_wf
  all_goals apply Prod.Lex.left
  all_goals simp_arith

end

end Torchbox

mutual

/-- Python == is reflexive on NaN-free values whose dicts are duplicate-free. -/
theorem pyEq_self (x : PyVal) (h1 : noNaN x = true) (h2 : distinctKeys x = true) :
    pyEq x x = true := by
  cases x with
  | none => simp [pyEq, toNum]
  | bool b => simp [pyEq, toNum, numEq]
  | int n => simp [pyEq, toNum, numEq]
  | float f =>
    cases f with
    | fin q => simp [pyEq, toNum, numEq]
    | inf => simp [pyEq, toNum, numEq]
    | ninf => simp [pyEq, toNum, numEq]
    | nan => simp [noNaN] at h1
  | str s => simp [pyEq, toNum]
  | list xs =>
    simp only [noNaN] at h1
    simp only [distinctKeys] at h2
    simp [pyEq, toNum, pyEqList_self xs h1 h2]
  | tuple xs =>
    simp only [noNaN] at h1
    simp only [distinctKeys] at h2
    simp [pyEq, toNum, pyEqList_self xs h1 h2]
  | dict d =>
    simp only [noNaN] at h1
    simp only [distinctKeys, Bool.and_eq_true] at h2
    have hsub : ∀ kv ∈ d, lookupKey kv.1 d = some kv.2 :=
      lookup_self_of_noDup h2.1
    simp [pyEq, toNum, pyEqEntries_sub d d hsub h1 h2.2]
termination_by (sizeOf x, 1)
decreasing_by
  all_goals try subst_vars
  all_goals apply Prod.Lex.left
  all_goals simp_arith

/-- Element-wise reflexivity of Python == over a list. -/
theorem pyEqList_self (xs : List PyVal) (h1 : noNaNList xs = true)
    (h2 : distinctKeysList xs = true) : pyEqList xs xs = true := by
  cases xs with
  | nil => simp [pyEqList]
  | cons x rest =>
    simp only [noNaNList, Bool.and_eq_true] at h1
    simp only [distinctKeysList, Bool.and_eq_true] at h2
    simp [pyEqList, pyEq_self x h1.1 h2.1, pyEqList_self rest h1.2 h2.2]
termination_by (sizeOf xs, 0)
decreasing_by
  all_goals try subst_vars
  all_goals apply Prod.Lex.left
  all_goals simp_arith

/-- pyEqEntries holds whenever every binding of the first list is found
unchanged by lookup in the second. -/
theorem pyEqEntries_sub (e : List (Key × PyVal)) (d : List (Key × PyVal))
    (hsub : ∀ kv ∈ d, lookupKey kv.1 e = some kv.2)
    (h1 : noNaNEntries d = true) (h2 : distinctKeysEntries d = true) :
    pyEqEntries d e = true := by
  cases d with
  | nil => simp [pyEqEntries]
  | cons kv rest =>
    simp only [noNaNEntries, Bool.and_eq_true] at h1
    simp only [distinctKeysEntries, Bool.and_eq_true] at h2
    have hk := hsub kv (List.mem_cons_self _ _)
    have hrest : ∀ kv2 ∈ rest, lookupKey kv2.1 e = some kv2.2 := by
      intro kv2 h
      exact hsub kv2 (List.mem_cons_of_mem _ h)
    simp only [pyEqEntries, hk]
    simp [pyEq_self kv.2 h1.1 h2.1, pyEqEntries_sub e rest hrest h1.2 h2.2]
termination_by (sizeOf d, 0)
decreasing_by
  all_goals try subst_vars
  all_goals try (obtain ⟨k2, v2⟩ := kv)
  all_goals apply Prod.Lex.left
  all_goals simp_arith

end

/-- C10: deserialize undoes serialize for None, ints, floats, strs, bools,
lists, tuples and string-keyed dicts — amended: the round trip restores the
exact structure (tuples as tuples, nesting preserved) for every such value,
and the Python == comparison of the claim holds whenever the value contains
no NaN float (a NaN compares unequal to itself, so == fails on values
containing one); dict keys are assumed pairwise distinct, as in every dict a
Python program can build. -/
theorem serializer_roundtrip (x : PyVal) (h1 : noNaN x = true)
    (h2 : distinctKeys x = true) :
    Torchbox.deserialize (Torchbox.serialize x) = .ok x ∧ pyEq x x = true :=
  ⟨Torchbox.deserialize_serialize x, pyEq_self x h1 h2⟩

/-- C10 witness: a concrete nested value with a tuple, a dict and a float
round-trips and compares equal. -/
theorem serializer_roundtrip_witness :
    Torchbox.deserialize (Torchbox.serialize
        (.dict [(.s "a", .tuple [.int 1, .none]), (.s "b", .float (.fin (1/2)))]))
      = .ok (.dict [(.s "a", .tuple [.int 1, .none]), (.s "b", .float (.fin (1/2)))]) ∧
    pyEq (.dict [(.s "a", .tuple [.int 1, .none]), (.s "b", .float (.fin (1/2)))])
      (.dict [(.s "a", .tuple [.int 1, .none]), (.s "b", .float (.fin (1/2)))]) = true :=
  serializer_roundtrip _
    (by simp [noNaN, noNaNList, noNaNEntries])
    (by simp [distinctKeys, distinctKeysList, distinctKeysEntries, noDupKeys, keyMem])

/-- C10 counterexample: for x = float("nan") the round trip restores NaN
exactly, yet deserialize(serialize(x)) == x is False, because Python == on
NaN is false even against itself; so the claim as stated fails at x. -/
theorem serializer_roundtrip_nan_counterexample :
    Torchbox.deserialize (Torchbox.serialize (.float .nan)) = .ok (.float .nan) ∧
    pyEq (.float .nan) (.float .nan) = false :=
  ⟨Torchbox.deserialize_serialize _, by simp [pyEq, toNum, numEq]⟩

namespace Tinder

/-- tinder.crucible.CrucibleAccess flag bits. -/
def READ_FROM_BASE : Nat := 0x01

/-- Scope writes are forwarded to the parent first. -/
def WRITE_TO_BASE : Nat := 0x02

/-- Scope rejects writes to itself. -/
def READ_ONLY : Nat := 0x04

/-- Writes must keep the existing key and its runtime type. -/
def PROTECTED : Nat := 0x08

/-- Writes may not shadow a variable defined in an ancestor. -/
def NO_SHADOWING : Nat := 0x10

/-- The CrucibleError class hierarchy of tinder/crucible.py, by class, plus
the raw IndexError that `path[0]` raises on an empty path (the only
exception of `set` that is not a CrucibleError). -/
inductive CErr where
  | keyNotFound
  | valueNotFound
  | writeError
  | shadowingError
  | protectedError
  | readOnlyError
  | baseError
  | indexError
deriving DecidableEq, Repr

/-- tinder.crucible.Crucible: named values (the `variables` attribute,
called `vars` here because `variables` is reserved), an optional parent
scope, access flag bits, and the keys frozen as constants. -/
inductive Crucible where
  | mk (vars : List (Key × PyVal)) (parent : Option Crucible)
      (access : Nat) (constants : List Key)

/-- The variables dict of the scope. -/
def Crucible.vars : Crucible → List (Key × PyVal)
  | .mk v _ _ _ => v

/-- The parent scope, if any. -/
def Crucible.parent : Crucible → Option Crucible
  | .mk _ p _ _ => p

/-- The access flag bits. -/
def Crucible.access : Crucible → Nat
  | .mk _ _ a _ => a

/-- The constant keys. -/
def Crucible.constants : Crucible → List Key
  | .mk _ _ _ k => k

/-- The scope with its variables dict replaced (in-place mutation). -/
def Crucible.withVars : Crucible → List (Key × PyVal) → Crucible
  | .mk _ p a k, v => .mk v p a k

/-- The scope with its parent replaced (mutation through the parent link). -/
def Crucible.withParent : Crucible → Option Crucible → Crucible
  | .mk v _ a k, p => .mk v p a k

/-- Python `scope[point]` during a path walk: dicts index by key, lists,
tuples and strings index by int with negative wrap-around; anything else is
unsubscriptable and the walk fails. -/
def pyIndex (v : PyVal) (k : Key) : Option PyVal :=
  match v, k with
  | .dict d, _ => lookupKey k d
  | .list xs, .i n =>
    let m := if n < 0 then n + xs.length else n
    if m < 0 then Option.none else xs.get? m.toNat
  | .tuple xs, .i n =>
    let m := if n < 0 then n + xs.length else n
    if m < 0 then Option.none else xs.get? m.toNat
  | .str s, .i n =>
    let m := if n < 0 then n + s.length else n
    if m < 0 then Option.none
    else (s.toList.get? m.toNat).map (fun c => .str (String.singleton c))
  | _, _ => Option.none

/-- Walk a value along the remaining path components. -/
def walkVal (v : PyVal) : List Key → Option PyVal
  | [] => some v
  | k :: rest =>
    match pyIndex v k with
    | some w => walkVal w rest
    | Option.none => Option.none

/-- isinstance(value, type(existing)) over the modelled values: every type
matches itself, and a bool is an instance of int (bool subclasses int in
Python); no other cross-type pair matches. -/
def isinst : PyVal → PyVal → Bool
  | .none, .none => true
  | .bool _, .bool _ => true
  | .bool _, .int _ => true
  | .int _, .int _ => true
  | .float _, .float _ => true
  | .str _, .str _ => true
  | .list _, .list _ => true
  | .tuple _, .tuple _ => true
  | .dict _, .dict _ => true
  | _, _ => false

/-- Replace the element at an existing key/index of a container, for
rebuilding the spine after an in-place nested assignment; containers the
walk cannot pass through are returned unchanged (those walks fail before
any assignment happens). -/
def pyReplace (v : PyVal) (k : Key) (sub : PyVal) : PyVal :=
  match v, k with
  | .dict d, _ => .dict (insertKey k sub d)
  | .list xs, .i n =>
    let m := if n < 0 then n + xs.length else n
    .list (xs.set m.toNat sub)
  | .tuple xs, .i n =>
    let m := if n < 0 then n + xs.length else n
    .tuple (xs.set m.toNat sub)
  | _, _ => v

/-- The spine of Crucible.set.write_to_self after the leading variables
lookup: walk the remaining prefix, then perform the checked assignment of
the leaf key.  Checks appear in source order: walk failures first
(CrucibleKeyNotFound), then READ_ONLY, then the list/dict dispatch with its
range, key-type and PROTECTED isinstance checks. -/
def writeWalk (scope : PyVal) (rest : List Key) (key : Key) (value : PyVal)
    (prot ro : Bool) : Except CErr PyVal :=
  match rest with
  | [] =>
    if ro then .error .readOnlyError
    else
      match scope, key with
      | .list xs, .i n =>
        if n < 0 ∨ n ≥ xs.length then .error .baseError
        else if prot && !isinst value ((xs.get? n.toNat).getD .none) then
          .error .protectedError
        else .ok (.list (xs.set n.toNat value))
      | .list _, _ => .error .keyNotFound
      | .dict d, _ =>
        if prot then
          match lookupKey key d with
          | Option.none => .error .writeError
          | some old =>
            if !isinst value old then .error .protectedError
            else .ok (.dict (insertKey key value d))
        else .ok (.dict (insertKey key value d))
      | _, _ => .error .baseError
  | k :: rest2 =>
    match pyIndex scope k with
    | Option.none => .error .keyNotFound
    | some sub =>
      match writeWalk sub rest2 key value prot ro with
      | .error e => .error e
      | .ok sub2 => .ok (pyReplace scope k sub2)

/-- Split a path into its prefix and leaf (`path[:-1]`, `path[-1]`). -/
def splitLast : List Key → Option (List Key × Key)
  | [] => Option.none
  | [k] => some ([], k)
  | k :: rest =>
    match splitLast rest with
    | some (p, l) => some (k :: p, l)
    | Option.none => Option.none

/-- Crucible.set.write_to_self: reject constant leaf keys, walk `path[:-1]`
from the scope object itself, then write through the checks.  With an empty
prefix the walked scope is the Crucible object, which is neither a list nor
a dict, so every top-level write fails with CrucibleError; with an empty
path, `path[-1]` raises IndexError. -/
def Crucible.writeToSelf (c : Crucible) (path : List Key) (value : PyVal) :
    Except CErr Crucible :=
  match splitLast path with
  | Option.none => .error .indexError
  | some (pre, key) =>
    if key ∈ c.constants then .error .writeError
    else
      match pre with
      | [] =>
        if c.access &&& READ_ONLY ≠ 0 then .error .readOnlyError
        else .error .baseError
      | k1 :: rest =>
        match lookupKey k1 c.vars with
        | Option.none => .error .keyNotFound
        | some v1 =>
          match writeWalk v1 rest key value (c.access &&& PROTECTED ≠ 0)
              (c.access &&& READ_ONLY ≠ 0) with
          | .error e => .error e
          | .ok v2 => .ok (c.withVars (insertKey k1 v2 c.vars))

/-- The optional parent field is a component of the scope. -/
theorem sizeOf_crucible_parent_opt (c : Crucible) : sizeOf c.parent < 1 + sizeOf c := by
  cases c with
  | mk v p a k =>
    simp only [Crucible.parent]
    simp_arith

/-- Crucible.set.is_shadowing: the key is defined in some ancestor scope. -/
def shadowed (key : Key) : Option Crucible → Bool
  | Option.none => false
  | some c => (lookupKey key c.vars).isSome || shadowed key c.parent
termination_by o => sizeOf o
decreasing_by exact sizeOf_crucible_parent_opt c

/-- The parent scope is a component of the child. -/
theorem sizeOf_crucible_parent {c p : Crucible} (h : c.parent = some p) :
    sizeOf p < sizeOf c := by
  cases c with
  | mk v pr a k =>
    simp only [Crucible.parent] at h
    subst h
    simp_arith

mutual

/-- Crucible.set: with WRITE_TO_BASE try the parent chain first; on any
CrucibleError fall back — to a second base-write attempt when NO_SHADOWING
is set and the first path component is defined in an ancestor (failure of
that attempt raising the shadowing error), and to write_to_self otherwise.
An empty path raises IndexError at `path[0]`. -/
def Crucible.set (c : Crucible) (path : List Key) (value : PyVal) :
    Except CErr Crucible :=
  match path with
  | [] => .error .indexError
  | k0 :: _ =>
    match (if c.access &&& WRITE_TO_BASE = 0 then .error .writeError
           else c.writeToBase path value : Except CErr Crucible) with
    | .ok c2 => .ok c2
    | .error _ =>
      if c.access &&& NO_SHADOWING ≠ 0 ∧ shadowed k0 c.parent then
        match c.writeToBase path value with
        | .ok c2 => .ok c2
        | .error _ => .error .shadowingError
      else c.writeToSelf path value
termination_by (sizeOf c, 1)
decreasing_by
  all_goals apply Prod.Lex.right
  all_goals omega

/-- Crucible.set.write_to_base: delegate the write to the parent scope. -/
def Crucible.writeToBase (c : Crucible) (path : List Key) (value : PyVal) :
    Except CErr Crucible :=
  match hp : c.parent with
  | Option.none => .error .writeError
  | some p =>
    match p.set path value with
    | .ok p2 => .ok (c.withParent (some p2))
    | .error e => .error e
termination_by (sizeOf c, 0)
decreasing_by
  apply Prod.Lex.left
  exact sizeOf_crucible_parent hp

end

/-- Unfolding equation for writeToBase when the parent is known. -/
theorem Crucible.writeToBase_eq (c : Crucible) (path : List Key) (value : PyVal) :
    c.writeToBase path value =
      match c.parent with
      | Option.none => .error .writeError
      | some p =>
        match p.set path value with
        | .ok p2 => .ok (c.withParent (some p2))
        | .error e => .error e := by
  rw [Crucible.writeToBase]
  split <;> rename_i heq <;> rw [heq]

/-- Crucible._walk_path: start at the scope object itself and index by each
path component in turn; the first component goes through the scope's
__getitem__ (its variables dict).  An empty path yields the scope object. -/
inductive Scope where
  | cru (c : Crucible)
  | val (v : PyVal)

/-- Walk a full path from a scope (Crucible._walk_path). -/
def Crucible.walkPath (c : Crucible) : List Key → Except CErr Scope
  | [] => .ok (.cru c)
  | k :: rest =>
    match lookupKey k c.vars with
    | Option.none => .error .keyNotFound
    | some v =>
      match walkVal v rest with
      | some w => .ok (.val w)
      | Option.none => .error .keyNotFound

mutual

/-- Crucible.get: with READ_FROM_BASE consult the parent chain first and
fall back to walking the own scope; otherwise walk the own scope first and
fall back to the parent chain. -/
def Crucible.get (c : Crucible) (path : List Key) : Except CErr Scope :=
  if c.access &&& READ_FROM_BASE ≠ 0 then
    match c.readFromBase path with
    | .ok r => .ok r
    | .error _ => c.walkPath path
  else
    match c.walkPath path with
    | .ok r => .ok r
    | .error _ => c.readFromBase path
termination_by (sizeOf c, 1)
decreasing_by
  all_goals apply Prod.Lex.right
  all_goals omega

/-- Crucible.get.read_from_base: delegate to the parent scope, raising
CrucibleValueNotFound at the top of the chain. -/
def Crucible.readFromBase (c : Crucible) (path : List Key) : Except CErr Scope :=
  match hp : c.parent with
  | Option.none => .error .valueNotFound
  | some p => p.get path
termination_by (sizeOf c, 0)
decreasing_by
  apply Prod.Lex.left
  exact sizeOf_crucible_parent hp

end

/-- Unfolding equation for readFromBase when the parent is known. -/
theorem Crucible.readFromBase_eq (c : Crucible) (path : List Key) :
    c.readFromBase path =
      match c.parent with
      | Option.none => .error .valueNotFound
      | some p => p.get path := by
  rw [Crucible.readFromBase]
  split <;> rename_i heq <;> rw [heq]

/-- Lookup after inserting the same key finds the inserted value. -/
theorem lookup_insertKey (k : Key) (v : PyVal) :
    ∀ (d : List (Key × PyVal)), lookupKey k (insertKey k v d) = some v := by
  intro d
  induction d with
  | nil => simp [insertKey, lookupKey]
  | cons kv rest ih =>
    obtain ⟨k2, w⟩ := kv
    by_cases h : k = k2
    · simp [insertKey, lookupKey, h]
    · simp [insertKey, lookupKey, h, ih]

/-- Indexing into a string only ever yields one-character strings. -/
theorem pyIndex_str {s : String} {k : Key} {w : PyVal}
    (h : pyIndex (.str s) k = some w) : ∃ c, w = .str (String.singleton c) := by
  cases k with
  | s k2 => simp [pyIndex] at h
  | i n =>
    simp only [pyIndex] at h
    split_ifs at h
    all_goals
      first
      | (simp at h; obtain ⟨a, -, ha⟩ := h; exact ⟨a, ha.symm⟩)
      | simp at h

/-- A nested write through a string never succeeds: indexing a string gives
one-character strings forever and the final assignment rejects them. -/
theorem writeWalk_str_err (key : Key) (value : PyVal) (prot ro : Bool) :
    ∀ (rest : List Key) (s : String) (v2 : PyVal),
      writeWalk (.str s) rest key value prot ro ≠ .ok v2 := by
  intro rest
  induction rest with
  | nil =>
    intro s v2 h
    by_cases hro : ro <;> simp [writeWalk, hro] at h
  | cons k2 rest2 ih =>
    intro s v2 h
    rw [writeWalk] at h
    split at h
    · simp at h
    · rename_i sub hpi
      split at h
      · simp at h
      · rename_i e sub2 hww
        obtain ⟨c, hc⟩ := pyIndex_str hpi
        rw [hc] at hww
        exact ih _ _ hww

/-- After replacing the element found at a key, indexing by that key finds
the replacement (strings are excluded: writes through them fail). -/
theorem pyIndex_pyReplace {v sub : PyVal} {k : Key} (sub2 : PyVal)
    (h : pyIndex v k = some sub) (hs : ∀ s, v ≠ .str s) :
    pyIndex (pyReplace v k sub2) k = some sub2 := by
  cases v with
  | dict d =>
    cases k <;> simp [pyIndex, pyReplace, lookup_insertKey]
  | list xs =>
    cases k with
    | s k2 => simp [pyIndex] at h
    | i n =>
      by_cases hn : n < 0
      · simp only [pyIndex, pyReplace, hn, if_true, List.length_set] at h ⊢
        split at h
        · simp at h
        · rename_i hm
          rw [List.get?_eq_getElem?] at h
          obtain ⟨hlt, -⟩ := List.getElem?_eq_some_iff.mp h
          rw [if_neg hm, List.get?_eq_getElem?, List.getElem?_set_eq_of_lt _ hlt]
      · simp only [pyIndex, pyReplace, hn, if_false, List.length_set] at h ⊢
        rw [List.get?_eq_getElem?] at h
        obtain ⟨hlt, -⟩ := List.getElem?_eq_some_iff.mp h
        rw [List.get?_eq_getElem?, List.getElem?_set_eq_of_lt _ hlt]
  | tuple xs =>
    cases k with
    | s k2 => simp [pyIndex] at h
    | i n =>
      by_cases hn : n < 0
      · simp only [pyIndex, pyReplace, hn, if_true, List.length_set] at h ⊢
        split at h
        · simp at h
        · rename_i hm
          rw [List.get?_eq_getElem?] at h
          obtain ⟨hlt, -⟩ := List.getElem?_eq_some_iff.mp h
          rw [if_neg hm, List.get?_eq_getElem?, List.getElem?_set_eq_of_lt _ hlt]
      · simp only [pyIndex, pyReplace, hn, if_false, List.length_set] at h ⊢
        rw [List.get?_eq_getElem?] at h
        obtain ⟨hlt, -⟩ := List.getElem?_eq_some_iff.mp h
        rw [List.get?_eq_getElem?, List.getElem?_set_eq_of_lt _ hlt]
  | str s => exact absurd rfl (hs s)
  | none => simp [pyIndex] at h
  | bool b => simp [pyIndex] at h
  | int n => simp [pyIndex] at h
  | float f => simp [pyIndex] at h

/-- A successful checked write makes the written value visible to a fresh
walk of the same path. -/
theorem writeWalk_walkVal (key : Key) (value : PyVal) (prot ro : Bool) :
    ∀ (rest : List Key) (v v2 : PyVal),
      writeWalk v rest key value prot ro = .ok v2 →
      walkVal v2 (rest ++ [key]) = some value := by
  intro rest
  induction rest with
  | nil =>
    intro v v2 h
    cases v with
    | list xs =>
      cases key with
      | s k2 => by_cases hro : ro <;> simp [writeWalk, hro] at h
      | i n =>
        by_cases hro : ro
        · simp [writeWalk, hro] at h
        · rw [writeWalk, if_neg (by simp [hro])] at h
          split at h
          · simp at h
          · rename_i hrange
            split at h
            · simp at h
            · simp only [Except.ok.injEq] at h
              subst h
              rcases not_or.mp hrange with ⟨hn0, hlen⟩
              have hlt : n.toNat < xs.length := by omega
              have hidx : pyIndex (.list (xs.set n.toNat value)) (.i n) = some value := by
                simp only [pyIndex, List.length_set, hn0, if_false, List.get?_eq_getElem?]
                rw [List.getElem?_set_eq_of_lt _ hlt]
              simp [walkVal, hidx]
    | dict d =>
      by_cases hro : ro
      · simp [writeWalk, hro] at h
      · rw [writeWalk, if_neg (by simp [hro])] at h
        by_cases hprot : prot
        · rw [if_pos (by simp [hprot])] at h
          split at h
          · simp at h
          · rename_i old hl
            split at h
            · simp at h
            · simp only [Except.ok.injEq] at h
              subst h
              simp [walkVal, pyIndex, lookup_insertKey]
        · rw [if_neg (by simp [hprot])] at h
          simp only [Except.ok.injEq] at h
          subst h
          simp [walkVal, pyIndex, lookup_insertKey]
    | none => by_cases hro : ro <;> simp [writeWalk, hro] at h
    | bool b => by_cases hro : ro <;> simp [writeWalk, hro] at h
    | int n => by_cases hro : ro <;> simp [writeWalk, hro] at h
    | float f => by_cases hro : ro <;> simp [writeWalk, hro] at h
    | str s => by_cases hro : ro <;> simp [writeWalk, hro] at h
    | tuple xs => by_cases hro : ro <;> simp [writeWalk, hro] at h
  | cons k2 rest2 ih =>
    intro v v2 h
    rw [writeWalk] at h
    split at h
    · simp at h
    · rename_i sub hpi
      split at h
      · simp at h
      · rename_i e sub2 hww
        simp only [Except.ok.injEq] at h
        subst h
        have hs : ∀ s, v ≠ .str s := by
          intro s he
          subst he
          obtain ⟨c, hc⟩ := pyIndex_str hpi
          rw [hc] at hww
          exact writeWalk_str_err key value prot ro rest2 (String.singleton c) sub2 hww
        have hnew := pyIndex_pyReplace sub2 hpi hs
        simp only [List.cons_append, walkVal, hnew]
        exact ih sub sub2 hww

/-- splitLast returns the prefix and leaf of the path. -/
theorem splitLast_append :
    ∀ {path p : List Key} {l : Key}, splitLast path = some (p, l) → path = p ++ [l] := by
  intro path
  induction path with
  | nil => intro p l h; simp [splitLast] at h
  | cons k rest ih =>
    intro p l h
    cases rest with
    | nil =>
      rw [splitLast] at h
      simp only [Option.some.injEq, Prod.mk.injEq] at h
      rw [← h.1, ← h.2]
      rfl
    | cons k2 rest2 =>
      simp only [splitLast] at h
      rcases h2 : splitLast (k2 :: rest2) with _ | pl
      · rw [h2] at h; simp at h
      · rw [h2] at h
        obtain ⟨p2, l2⟩ := pl
        simp only [Option.some.injEq, Prod.mk.injEq] at h
        rw [← h.1, ← h.2]
        simp [ih h2]

/-- withVars keeps the parent link. -/
theorem Crucible.withVars_parent (c : Crucible) (l : List (Key × PyVal)) :
    (c.withVars l).parent = c.parent := by
  cases c
  rfl

/-- withVars keeps the access flags. -/
theorem Crucible.withVars_access (c : Crucible) (l : List (Key × PyVal)) :
    (c.withVars l).access = c.access := by
  cases c
  rfl

/-- withVars installs the new variables dict. -/
theorem Crucible.withVars_vars (c : Crucible) (l : List (Key × PyVal)) :
    (c.withVars l).vars = l := by
  cases c
  rfl

/-- On a parentless scope every successful set went through write_to_self:
both base-write attempts fail against the missing parent and no shadowing
is possible. -/
theorem Crucible.set_parentless {c : Crucible} {path : List Key} {value : PyVal}
    {c2 : Crucible} (hp : c.parent = Option.none)
    (h : c.set path value = .ok c2) : c.writeToSelf path value = .ok c2 := by
  cases path with
  | nil => rw [Crucible.set] at h; simp at h
  | cons k0 rest =>
    rw [Crucible.set] at h
    have hbase : c.writeToBase (k0 :: rest) value = .error .writeError := by
      rw [Crucible.writeToBase_eq, hp]
    have hnsh : ¬ (c.access &&& NO_SHADOWING ≠ 0 ∧ shadowed k0 c.parent = true) := by
      rw [hp]
      simp [shadowed]
    by_cases hwtb : c.access &&& WRITE_TO_BASE = 0
    · rw [if_pos hwtb] at h
      rw [if_neg hnsh] at h
      simpa using h
    · rw [if_neg hwtb, hbase] at h
      rw [if_neg hnsh] at h
      simpa using h

/-- A successful write_to_self makes the written value the result of a get
of the same path on a parentless scope. -/
theorem Crucible.writeToSelf_get {c : Crucible} {path : List Key} {value : PyVal}
    {c2 : Crucible} (hp : c.parent = Option.none)
    (h : c.writeToSelf path value = .ok c2) : c2.get path = .ok (.val value) := by
  rw [Crucible.writeToSelf] at h
  split at h
  · simp at h
  · rename_i pre key hsplit
    split at h
    · simp at h
    · split at h
      · split at h <;> simp at h
      · rename_i k1 rest
        split at h
        · simp at h
        · rename_i v1 hl
          split at h
          · simp at h
          · rename_i v2 hww
            simp only [Except.ok.injEq] at h
            subst h
            have hpath := splitLast_append hsplit
            have hwalk : (c.withVars (insertKey k1 v2 c.vars)).walkPath path
                = .ok (.val value) := by
              rw [hpath, List.cons_append, Crucible.walkPath, Crucible.withVars_vars,
                lookup_insertKey]
              simp [writeWalk_walkVal key value _ _ rest v1 v2 hww]
            have hbase : (c.withVars (insertKey k1 v2 c.vars)).readFromBase path
                = .error .valueNotFound := by
              rw [Crucible.readFromBase_eq, Crucible.withVars_parent, hp]
            rw [Crucible.get]
            by_cases hrfb : (c.withVars (insertKey k1 v2 c.vars)).access &&& READ_FROM_BASE ≠ 0
            · rw [if_pos hrfb, hbase]
              exact hwalk
            · rw [if_neg hrfb, hwalk]

/-- C4 (amended): on a Crucible without a parent (any access flags), a set
that completes without an exception is immediately readable back: get of
the same path returns the written value.  For scope chains the claim fails:
WRITE_TO_BASE sends the write to an ancestor while get may read a shadowing
local entry, see the counterexample. -/
theorem crucible_set_then_get {c : Crucible} {path : List Key} {value : PyVal}
    {c2 : Crucible} (hp : c.parent = Option.none)
    (h : c.set path value = .ok c2) : c2.get path = .ok (.val value) :=
  Crucible.writeToSelf_get hp (Crucible.set_parentless hp h)

/-- C4 witness: writing 7 at a.b in a parentless scope and reading it back. -/
theorem crucible_set_then_get_witness :
    (Crucible.mk [(Key.s "a", PyVal.dict [(Key.s "b", PyVal.int 1)])] Option.none 0 []).set
      [Key.s "a", Key.s "b"] (.int 7)
      = .ok (Crucible.mk [(Key.s "a", PyVal.dict [(Key.s "b", PyVal.int 7)])] Option.none 0 []) ∧
    (Crucible.mk [(Key.s "a", PyVal.dict [(Key.s "b", PyVal.int 7)])] Option.none 0 []).get
      [Key.s "a", Key.s "b"] = .ok (.val (.int 7)) := by
  have hset : (Crucible.mk [(Key.s "a", PyVal.dict [(Key.s "b", PyVal.int 1)])] Option.none 0 []).set
      [Key.s "a", Key.s "b"] (.int 7)
      = .ok (Crucible.mk [(Key.s "a", PyVal.dict [(Key.s "b", PyVal.int 7)])] Option.none 0 []) := by
    rw [Crucible.set]
    simp [Crucible.parent, Crucible.access, Crucible.writeToSelf, splitLast,
      Crucible.constants, Crucible.vars, lookupKey, writeWalk, insertKey,
      Crucible.withVars, shadowed, WRITE_TO_BASE, NO_SHADOWING, READ_ONLY, PROTECTED]
  exact ⟨hset, crucible_set_then_get (by rfl) hset⟩

/-- C4 counterexample: a WRITE_TO_BASE child shadowing a.b: the set succeeds
(it lands in the parent), but the immediately following get on the same
Crucible reads the child's own entry 0, not the written 7. -/
theorem crucible_set_get_shadow_counterexample :
    (Crucible.mk [(Key.s "a", PyVal.dict [(Key.s "b", PyVal.int 0)])]
        (some (Crucible.mk [(Key.s "a", PyVal.dict [(Key.s "b", PyVal.int 5)])]
          Option.none 0 [])) WRITE_TO_BASE []).set
      [Key.s "a", Key.s "b"] (.int 7)
      = .ok (Crucible.mk [(Key.s "a", PyVal.dict [(Key.s "b", PyVal.int 0)])]
          (some (Crucible.mk [(Key.s "a", PyVal.dict [(Key.s "b", PyVal.int 7)])]
            Option.none 0 [])) WRITE_TO_BASE []) ∧
    (Crucible.mk [(Key.s "a", PyVal.dict [(Key.s "b", PyVal.int 0)])]
        (some (Crucible.mk [(Key.s "a", PyVal.dict [(Key.s "b", PyVal.int 7)])]
          Option.none 0 [])) WRITE_TO_BASE []).get
      [Key.s "a", Key.s "b"] = .ok (.val (.int 0)) := by
  constructor
  · have hpar : (Crucible.mk [(Key.s "a", PyVal.dict [(Key.s "b", PyVal.int 5)])]
        Option.none 0 []).set [Key.s "a", Key.s "b"] (.int 7)
        = .ok (Crucible.mk [(Key.s "a", PyVal.dict [(Key.s "b", PyVal.int 7)])]
            Option.none 0 []) := by
      rw [Crucible.set]
      simp [Crucible.parent, Crucible.access, Crucible.writeToSelf, splitLast,
        Crucible.constants, Crucible.vars, lookupKey, writeWalk, insertKey,
        Crucible.withVars, shadowed, WRITE_TO_BASE, NO_SHADOWING, READ_ONLY, PROTECTED]
    rw [Crucible.set, Crucible.writeToBase_eq]
    simp [Crucible.parent, Crucible.access, hpar, Crucible.withParent,
      WRITE_TO_BASE, NO_SHADOWING]
  · rw [Crucible.get]
    simp [Crucible.access, Crucible.walkPath, Crucible.vars, lookupKey, walkVal,
      pyIndex, READ_FROM_BASE, WRITE_TO_BASE]

/-- C7 (amended): on a PROTECTED scope a nested write to self succeeds
exactly when the leaf key already exists and isinstance(value, type(old))
holds — the existing type or a subclass; since bool subclasses int, a bool
may overwrite an int even though the runtime types differ.  A missing key
raises CrucibleWriteError, a failing isinstance raises
CrucibleWriteErrorProtected, and in both cases no value is stored. -/
theorem crucible_protected_set (n k : String) (d : List (Key × PyVal)) (value : PyVal) :
    (∀ old, lookupKey (.s k) d = some old → isinst value old = true →
      (Crucible.mk [(.s n, .dict d)] Option.none PROTECTED []).set [.s n, .s k] value
        = .ok (Crucible.mk [(.s n, .dict (insertKey (.s k) value d))] Option.none PROTECTED [])) ∧
    (lookupKey (.s k) d = Option.none →
      (Crucible.mk [(.s n, .dict d)] Option.none PROTECTED []).set [.s n, .s k] value
        = .error .writeError) ∧
    (∀ old, lookupKey (.s k) d = some old → isinst value old = false →
      (Crucible.mk [(.s n, .dict d)] Option.none PROTECTED []).set [.s n, .s k] value
        = .error .protectedError) := by
  refine ⟨fun old hl hi => ?_, fun hl => ?_, fun old hl hi => ?_⟩
  · rw [Crucible.set]
    simp [Crucible.parent, Crucible.access, Crucible.writeToSelf, splitLast,
      Crucible.constants, Crucible.vars, lookupKey, writeWalk, insertKey,
      Crucible.withVars, shadowed, WRITE_TO_BASE, NO_SHADOWING, READ_ONLY,
      PROTECTED, hl, hi]
    simp [(by decide : (8 : Nat) &&& 2 = 0), (by decide : (8 : Nat) &&& 4 = 0)]
  · rw [Crucible.set]
    simp [Crucible.parent, Crucible.access, Crucible.writeToSelf, splitLast,
      Crucible.constants, Crucible.vars, lookupKey, writeWalk, insertKey,
      Crucible.withVars, shadowed, WRITE_TO_BASE, NO_SHADOWING, READ_ONLY,
      PROTECTED, hl]
    simp [(by decide : (8 : Nat) &&& 2 = 0), (by decide : (8 : Nat) &&& 4 = 0)]
  · rw [Crucible.set]
    simp [Crucible.parent, Crucible.access, Crucible.writeToSelf, splitLast,
      Crucible.constants, Crucible.vars, lookupKey, writeWalk, insertKey,
      Crucible.withVars, shadowed, WRITE_TO_BASE, NO_SHADOWING, READ_ONLY,
      PROTECTED, hl, hi]
    simp [(by decide : (8 : Nat) &&& 2 = 0), (by decide : (8 : Nat) &&& 4 = 0)]

/-- C7 counterexample: with PROTECTED set, writing True over the int 5
succeeds (isinstance(True, int) holds since bool subclasses int) although
type(True) differs from type(5), refuting the claimed type-equality
condition. -/
theorem crucible_protected_bool_counterexample :
    (Crucible.mk [(Key.s "d", PyVal.dict [(Key.s "k", PyVal.int 5)])]
        Option.none PROTECTED []).set [Key.s "d", Key.s "k"] (.bool true)
      = .ok (Crucible.mk [(Key.s "d", PyVal.dict [(Key.s "k", PyVal.bool true)])]
          Option.none PROTECTED []) := by
  rw [Crucible.set]
  simp [Crucible.parent, Crucible.access, Crucible.writeToSelf, splitLast,
    Crucible.constants, Crucible.vars, lookupKey, writeWalk, insertKey,
    Crucible.withVars, shadowed, WRITE_TO_BASE, NO_SHADOWING, READ_ONLY,
    PROTECTED, isinst]
  simp [(by decide : (8 : Nat) &&& 2 = 0), (by decide : (8 : Nat) &&& 4 = 0)]

end Tinder

namespace Firestarter

/-- An anchored matcher standing for a compiled regex (or the whitespace
ignore pattern): given the input and a position, the end of the match at
that position, or none.  A real Python regex never matches backwards. -/
def Matcher := List Char → Nat → Option Nat

/-- The rule variants of firestarter/grammar.py.  The per-rule `strict`
flag of the source (consume drops the ignore pattern when set) is modelled
by the `strict` wrapper: a source rule with the flag set is embedded as
`strict r`. -/
inductive Rule where
  | strR (t : List Char)
  | pat (f : Matcher)
  | all (rs : List Rule)
  | choice (rs : List Rule)
  | zeroOrMore (r : Rule)
  | oneOrMore (r : Rule)
  | optional (r : Rule)
  | andPredicate (r : Rule)
  | notPredicate (r : Rule)
  | strict (r : Rule)

/-- A Match: the span of input consumed and the child matches.  The source
also stores the rule and a last-error pointer, which only feed error
diagnostics and are not needed for the consume semantics. -/
inductive Match where
  | mk (start stop : Nat) (children : List Match)

/-- The start position of the span. -/
def Match.start : Match → Nat
  | .mk a _ _ => a

/-- The end position of the span. -/
def Match.stop : Match → Nat
  | .mk _ b _ => b

/-- The child matches. -/
def Match.children : Match → List Match
  | .mk _ _ c => c

/-- How a consume ends when it does not return a Match: a MatchError at a
position (the error's rule and children feed diagnostics only), the
UnboundLocalError that RuleAndPredicate's failure branch raises (its
`except` clause evaluates the never-assigned name `match`), or an infinite
loop — a repetition whose inner rule succeeds without advancing repeats the
identical loop state forever, which the embedding marks as `diverge`. -/
inductive MErr where
  | matchErr (pos : Nat)
  | unboundLocal
  | diverge
deriving DecidableEq, Repr

/-- The whitespace skip at the head of the primitive rules: if an ignore
pattern is given and matches at the position, advance past it. -/
def skipIgnore (ig : Option Matcher) (s : List Char) (p : Nat) : Nat :=
  match ig with
  | Option.none => p
  | some f =>
    match f s p with
    | some e => e
    | Option.none => p

/-- Rule.consume / the per-variant _consume methods of grammar.py, as one
recursive function.  Sequences and choices recurse along their child list;
repetitions recurse at the advanced position, returning `diverge` exactly
when the Python loop would repeat an identical state forever (a zero-width
inner success with input left). -/
def consume : Rule → List Char → Nat → Option Matcher → Except MErr Match
  | .strR t, s, p, ig =>
    let p2 := skipIgnore ig s p
    if p2 < s.length ∧ t.isPrefixOf (s.drop p2) then .ok (.mk p2 (p2 + t.length) [])
    else .error (.matchErr p2)
  | .pat f, s, p, ig =>
    let p2 := skipIgnore ig s p
    match f s p2 with
    | some e => .ok (.mk p2 e [])
    | Option.none => .error (.matchErr p2)
  | .all [], s, p, _ => .ok (.mk p p [])
  | .all (r :: rs), s, p, ig =>
    match consume r s p ig with
    | .error (.matchErr _) => .error (.matchErr p)
    | .error e => .error e
    | .ok m =>
      match consume (.all rs) s m.stop ig with
      | .ok m2 => .ok (.mk p m2.stop (m :: m2.children))
      | .error e => .error e
  | .choice [], s, p, _ => .error (.matchErr p)
  | .choice (r :: rs), s, p, ig =>
    match consume r s p ig with
    | .ok m => .ok (.mk m.start m.stop [m])
    | .error (.matchErr _) => consume (.choice rs) s p ig
    | .error e => .error e
  | .zeroOrMore r, s, p, ig =>
    if h1 : p < s.length then
      match consume r s p ig with
      | .error (.matchErr _) => .ok (.mk p p [])
      | .error e => .error e
      | .ok m =>
        if h2 : m.stop ≤ p then .error .diverge
        else
          match consume (.zeroOrMore r) s m.stop ig with
          | .ok m2 => .ok (.mk p m2.stop (m :: m2.children))
          | .error e => .error e
    else .ok (.mk p p [])
  | .oneOrMore r, s, p, ig =>
    if h1 : p < s.length then
      match consume r s p ig with
      | .error (.matchErr _) => .error (.matchErr p)
      | .error e => .error e
      | .ok m =>
        if h2 : m.stop ≤ p then .error .diverge
        else
          match consume (.zeroOrMore r) s m.stop ig with
          | .ok m2 => .ok (.mk p m2.stop (m :: m2.children))
          | .error e => .error e
    else .error (.matchErr p)
  | .optional r, s, p, ig =>
    match consume r s p ig with
    | .ok m => .ok (.mk m.start m.stop [m])
    | .error (.matchErr _) => .ok (.mk p p [])
    | .error e => .error e
  | .andPredicate r, s, p, ig =>
    match consume r s p ig with
    | .ok _ => .ok (.mk p p [])
    | .error (.matchErr _) => .error .unboundLocal
    | .error e => .error e
  | .notPredicate r, s, p, ig =>
    match consume r s p ig with
    | .ok _ => .error (.matchErr p)
    | .error (.matchErr _) => .ok (.mk p p [])
    | .error e => .error e
  | .strict r, s, p, _ => consume r s p Option.none
termination_by r s p ig => (sizeOf r, s.length + 1 - p)
decreasing_by
  all_goals simp_wf
  all_goals try simp_arith
  all_goals
    first
    | (apply Prod.Lex.left; omega)
    | (apply Prod.Lex.right; omega)

/-- C5: ordered choice is committed to its first matching alternative: if
rule a matches at a position, Choice(a, b) there returns a match with
exactly a's span (and a's match as its only child), no matter what b is. -/
theorem choice_first_match (a b : Rule) (s : List Char) (p : Nat)
    (ig : Option Matcher) (m : Match) (h : consume a s p ig = .ok m) :
    consume (.choice [a, b]) s p ig = .ok (.mk m.start m.stop [m]) := by
  rw [consume, h]

/-- C5 witness: the spec scenario Start <- "ab" / "a" on input "ab": the
first alternative matches with span [0, 2) and the choice returns it. -/
theorem choice_first_match_witness :
    consume (.choice [.strR ['a', 'b'], .strR ['a']]) ['a', 'b'] 0 Option.none
      = .ok (.mk 0 2 [.mk 0 2 []]) := by
  have ha : consume (.strR ['a', 'b']) ['a', 'b'] 0 Option.none = .ok (.mk 0 2 []) := by
    rw [consume]
    simp [skipIgnore, List.isPrefixOf]
  have := choice_first_match (.strR ['a', 'b']) (.strR ['a']) ['a', 'b'] 0
    Option.none (.mk 0 2 []) ha
  simpa [Match.start, Match.stop] using this

/-- Consecutive matches of a rule from a position: the ways a prefix of the
remaining input can be decomposed into a sequence of r-matches. -/
inductive Chain (r : Rule) (s : List Char) (ig : Option Matcher) : Nat → Nat → Prop where
  | refl (p : Nat) : Chain r s ig p p
  | step {p q : Nat} {m : Match} (h1 : consume r s p ig = .ok m)
      (h2 : Chain r s ig m.stop q) : Chain r s ig p q

/-- Chains only move forward when every match of r advances. -/
theorem Chain.le {r : Rule} {s : List Char} {ig : Option Matcher}
    (hok : ∀ p m, consume r s p ig = .ok m → p < m.stop ∧ m.stop ≤ s.length) :
    ∀ {a b : Nat}, Chain r s ig a b → a ≤ b := by
  intro a b h
  induction h with
  | refl p => exact Nat.le_refl p
  | step h1 h2 ih =>
    have := (hok _ _ h1).1
    omega

/-- C6 (amended): for a rule x whose consume, at every position of the
input, either succeeds strictly advancing within the input or fails with a
MatchError, ZeroOrMore(x) always succeeds, starts at the given position,
and its span is a decomposition into consecutive x-matches that is the
longest one — any other decomposable prefix ends no later.  Without those
two conditions the claim fails: an inner AndPredicate failure raises
UnboundLocalError through the repetition, and a zero-width inner success
loops forever (see the counterexample). -/
theorem zeroOrMore_greedy (r : Rule) (s : List Char) (ig : Option Matcher)
    (hok : ∀ p m, consume r s p ig = .ok m → p < m.stop ∧ m.stop ≤ s.length)
    (herr : ∀ p e, consume r s p ig = .error e → ∃ q, e = .matchErr q)
    (p0 : Nat) :
    ∃ m, consume (.zeroOrMore r) s p0 ig = .ok m ∧ m.start = p0 ∧
      Chain r s ig p0 m.stop ∧ ∀ q, Chain r s ig p0 q → q ≤ m.stop := by
  by_cases h1 : p0 < s.length
  · rcases hc : consume r s p0 ig with e | m
    · refine ⟨.mk p0 p0 [], ?_, rfl, .refl p0, ?_⟩
      · rw [consume, dif_pos h1, hc]
        obtain ⟨q, hq⟩ := herr p0 e hc
        rw [hq]
      · intro q hq
        cases hq with
        | refl => exact Nat.le_refl p0
        | step hs1 hs2 => rw [hc] at hs1; exact absurd hs1 (by simp)
    · obtain ⟨hadv, hle⟩ := hok p0 m hc
      obtain ⟨m2, hm2, hstart2, hchain2, hmax2⟩ := zeroOrMore_greedy r s ig hok herr m.stop
      refine ⟨.mk p0 m2.stop (m :: m2.children), ?_, rfl, ?_, ?_⟩
      · rw [consume, dif_pos h1]
        simp only [hc]
        rw [dif_neg (by omega)]
        cases m2 with
        | mk a b c => simp only [hm2]
      · exact .step hc hchain2
      · intro q hq
        cases hq with
        | refl =>
          have hcle := Chain.le hok hchain2
          show p0 ≤ m2.stop
          omega
        | step hs1 hs2 =>
          rw [hc] at hs1
          simp only [Except.ok.injEq] at hs1
          subst hs1
          show q ≤ m2.stop
          exact hmax2 q hs2
  · refine ⟨.mk p0 p0 [], ?_, rfl, .refl p0, ?_⟩
    · rw [consume, dif_neg h1]
    · intro q hq
      cases hq with
      | refl => exact Nat.le_refl p0
      | step hs1 hs2 =>
        obtain ⟨ha2, hb2⟩ := hok _ _ hs1
        omega
termination_by s.length + 1 - p0
decreasing_by
  simp_wf
  omega

/-- C6 witness: x = "a" on input "aab" from 0: ZeroOrMore(x) succeeds and
its span is the longest prefix decomposable into "a"-matches. -/
theorem zeroOrMore_greedy_witness :
    ∃ m, consume (.zeroOrMore (.strR ['a'])) ['a', 'a', 'b'] 0 Option.none = .ok m ∧
      m.start = 0 ∧ Chain (.strR ['a']) ['a', 'a', 'b'] Option.none 0 m.stop ∧
      ∀ q, Chain (.strR ['a']) ['a', 'a', 'b'] Option.none 0 q → q ≤ m.stop := by
  refine zeroOrMore_greedy (.strR ['a']) ['a', 'a', 'b'] Option.none ?_ ?_ 0
  · intro p m h
    rw [consume] at h
    split at h
    · rename_i hcond
      simp only [Except.ok.injEq] at h
      subst h
      simp [skipIgnore] at hcond
      simp [Match.stop, skipIgnore]
      omega
    · simp at h
  · intro p e h
    rw [consume] at h
    split at h
    · simp at h
    · simp only [Except.error.injEq] at h
      exact ⟨skipIgnore Option.none ['a', 'a', 'b'] p, h.symm⟩

/-- C6 counterexample: ZeroOrMore is not total.  With x = AndPredicate("a")
on input "b", the inner failure path of RuleAndPredicate evaluates the
unassigned name `match` and the resulting UnboundLocalError escapes the
repetition, so ZeroOrMore(x) raises instead of succeeding; and with
x = Optional("a") on input "b" the inner rule succeeds zero-width at
position 0 forever, so the repetition loop never terminates. -/
theorem zeroOrMore_counterexample :
    consume (.zeroOrMore (.andPredicate (.strR ['a']))) ['b'] 0 Option.none
      = .error .unboundLocal ∧
    consume (.zeroOrMore (.optional (.strR ['a']))) ['b'] 0 Option.none
      = .error .diverge := by
  constructor
  · rw [consume, dif_pos (by simp)]
    rw [show consume (.andPredicate (.strR ['a'])) ['b'] 0 Option.none
        = .error .unboundLocal from by
      rw [consume]
      rw [show consume (.strR ['a']) ['b'] 0 Option.none = .error (.matchErr 0) from by
        rw [consume]
        simp [skipIgnore, List.isPrefixOf]]]
  · rw [consume, dif_pos (by simp)]
    rw [show consume (.optional (.strR ['a'])) ['b'] 0 Option.none
        = .ok (.mk 0 0 []) from by
      rw [consume]
      rw [show consume (.strR ['a']) ['b'] 0 Option.none = .error (.matchErr 0) from by
        rw [consume]
        simp [skipIgnore, List.isPrefixOf]]]
    rfl

end Firestarter

namespace Tinder

/-! ## The Kindling operations and the Tinder run loop (src/tinder/__init__.py)

The operations receive the environment as a parameter and use only its
`get`, `set` and `in` protocol (tinder is explicitly unopinionated about
the environment object), so they are embedded against an interface
record; a plain string-keyed store and the tinder Crucible (reached
through Python string indexing, which walks the name character by
character) instantiate it. -/

/-- A runtime error of a transmuted operation: a CrucibleError subclass,
any other Python exception by its class name (TypeError,
ZeroDivisionError, ...), or a TinderBurn. -/
inductive TErr where
  | cruc (e : CErr)
  | py (name : String)
  | burn (msg : String)
deriving DecidableEq, Repr

/-- The Python class name of each CrucibleError subclass raised by
tinder/crucible.py, as matched by the interrupt table of Tinder.run. -/
def cErrName : CErr → String
  | .keyNotFound => "CrucibleKeyNotFound"
  | .valueNotFound => "CrucibleValueNotFound"
  | .writeError => "CrucibleWriteError"
  | .shadowingError => "CrucibleWriteErrorShadowing"
  | .protectedError => "CrucibleWriteErrorProtected"
  | .readOnlyError => "CrucibleWriteErrorReadOnly"
  | .baseError => "CrucibleError"
  | .indexError => "IndexError"

/-- `e.__class__.__name__` of a runtime error, the key the run loop looks
up in its interrupt table. -/
def errName : TErr → String
  | .cruc e => cErrName e
  | .py n => n
  | .burn _ => "TinderBurn"

/-- The environment protocol the operations use (`env.get`, `env.set`,
`name in env`).  Tinder duck-types the environment; theorems instantiate
this with a plain store or with the tinder Crucible. -/
structure EnvOps (σ : Type) where
  get : σ → String → Except CErr PyVal
  set : σ → String → PyVal → Except CErr σ
  mem : σ → String → Bool

/-- A plain string-keyed variable store: the minimal working environment
(a dict-like object with get/set). -/
abbrev SStore := List (String × PyVal)

/-- Store lookup; a missing name raises (CrucibleValueNotFound stands for
the lookup failure). -/
def sget : SStore → String → Except CErr PyVal
  | [], _ => .error .valueNotFound
  | (k, v) :: rest, n => if k = n then .ok v else sget rest n

/-- Store write: replace the first binding or append a new one. -/
def sinsert (k : String) (v : PyVal) : SStore → SStore
  | [] => [(k, v)]
  | (k2, w) :: rest => if k2 = k then (k2, v) :: rest else (k2, w) :: sinsert k v rest

/-- The plain store as an environment: get may fail, set always succeeds. -/
def simpleOps : EnvOps SStore :=
  ⟨sget, fun st n v => .ok (sinsert n v st),
   fun st n => match sget st n with | .ok _ => true | .error _ => false⟩

/-- The int reading of a value for Python arithmetic: bools are 0/1
(bool subclasses int), ints are themselves. -/
def intOfVal : PyVal → Option Int
  | .bool b => some (if b then 1 else 0)
  | .int n => some n
  | _ => Option.none

/-- The float reading of a numeric value (bool and int promote). -/
def floatOfVal : PyVal → Option PyFloat
  | .bool b => some (.fin (if b then 1 else 0))
  | .int n => some (.fin (n : Rat))
  | .float x => some x
  | _ => Option.none

/-- IEEE addition on the float model: NaN propagates, opposite infinities
give NaN, an infinity absorbs a finite operand. -/
def floatAdd : PyFloat → PyFloat → PyFloat
  | .nan, _ => .nan
  | _, .nan => .nan
  | .fin a, .fin b => .fin (a + b)
  | .fin _, y => y
  | x, .fin _ => x
  | .inf, .inf => .inf
  | .inf, .ninf => .nan
  | .ninf, .inf => .nan
  | .ninf, .ninf => .ninf

/-- Negation on the float model. -/
def floatNeg : PyFloat → PyFloat
  | .fin a => .fin (-a)
  | .inf => .ninf
  | .ninf => .inf
  | .nan => .nan

/-- IEEE multiplication on the float model: NaN propagates, zero times an
infinity is NaN, otherwise infinities follow the sign rule. -/
def floatMul : PyFloat → PyFloat → PyFloat
  | .nan, _ => .nan
  | _, .nan => .nan
  | .fin a, .fin b => .fin (a * b)
  | .fin a, .inf => if 0 < a then .inf else if a < 0 then .ninf else .nan
  | .fin a, .ninf => if 0 < a then .ninf else if a < 0 then .inf else .nan
  | .inf, .fin b => if 0 < b then .inf else if b < 0 then .ninf else .nan
  | .ninf, .fin b => if 0 < b then .ninf else if b < 0 then .inf else .nan
  | .inf, .inf => .inf
  | .inf, .ninf => .ninf
  | .ninf, .inf => .ninf
  | .ninf, .ninf => .inf

/-- IEEE division on the float model for a divisor that is not finite
zero (the caller raises ZeroDivisionError for that): NaN propagates,
inf/inf is NaN, finite/inf is 0.0 (the model folds -0.0 into 0). -/
def floatDiv : PyFloat → PyFloat → PyFloat
  | .nan, _ => .nan
  | _, .nan => .nan
  | .fin a, .fin b => .fin (a / b)
  | .fin _, .inf => .fin 0
  | .fin _, .ninf => .fin 0
  | .inf, .fin b => if 0 < b then .inf else .ninf
  | .ninf, .fin b => if 0 < b then .ninf else .inf
  | .inf, .inf => .nan
  | .inf, .ninf => .nan
  | .ninf, .inf => .nan
  | .ninf, .ninf => .nan

/-- Python `+`: int arithmetic stays int (bools count as 0/1), a float
operand promotes to float, same-type str/list/tuple concatenate,
everything else raises TypeError. -/
def pyAdd (a b : PyVal) : Except TErr PyVal :=
  match intOfVal a, intOfVal b with
  | some m, some n => .ok (.int (m + n))
  | _, _ =>
    match floatOfVal a, floatOfVal b with
    | some x, some y => .ok (.float (floatAdd x y))
    | _, _ =>
      match a, b with
      | .str s, .str t => .ok (.str (s ++ t))
      | .list xs, .list ys => .ok (.list (xs ++ ys))
      | .tuple xs, .tuple ys => .ok (.tuple (xs ++ ys))
      | _, _ => .error (.py "TypeError")

/-- Python `-`: numeric only. -/
def pySub (a b : PyVal) : Except TErr PyVal :=
  match intOfVal a, intOfVal b with
  | some m, some n => .ok (.int (m - n))
  | _, _ =>
    match floatOfVal a, floatOfVal b with
    | some x, some y => .ok (.float (floatAdd x (floatNeg y)))
    | _, _ => .error (.py "TypeError")

/-- `s * n` / `n * s` sequence repetition (a non-positive count gives the
empty sequence). -/
def strRep (s : String) (n : Int) : String :=
  String.join (List.replicate n.toNat s)

/-- List/tuple repetition. -/
def listRep (xs : List PyVal) (n : Int) : List PyVal :=
  (List.replicate n.toNat xs).join

/-- Python `*`: int arithmetic stays int, a float operand promotes,
a sequence times an int (either order) repeats it, else TypeError. -/
def pyMul (a b : PyVal) : Except TErr PyVal :=
  match intOfVal a, intOfVal b with
  | some m, some n => .ok (.int (m * n))
  | _, _ =>
    match floatOfVal a, floatOfVal b with
    | some x, some y => .ok (.float (floatMul x y))
    | _, _ =>
      match a, intOfVal b with
      | .str s, some n => .ok (.str (strRep s n))
      | .list xs, some n => .ok (.list (listRep xs n))
      | .tuple xs, some n => .ok (.tuple (listRep xs n))
      | _, _ =>
        match intOfVal a, b with
        | some n, .str s => .ok (.str (strRep s n))
        | some n, .list xs => .ok (.list (listRep xs n))
        | some n, .tuple xs => .ok (.tuple (listRep xs n))
        | _, _ => .error (.py "TypeError")

/-- Python `/` (true division): numeric only, a zero finite divisor
raises ZeroDivisionError, and the result is always a float. -/
def pyDiv (a b : PyVal) : Except TErr PyVal :=
  match floatOfVal a, floatOfVal b with
  | some x, some y =>
    match y with
    | .fin q =>
      if q = 0 then .error (.py "ZeroDivisionError")
      else .ok (.float (floatDiv x (.fin q)))
    | _ => .ok (.float (floatDiv x y))
  | _, _ => .error (.py "TypeError")

/-- Numeric `<`: exact values compare by value, NaN is below nothing and
above nothing. -/
def numLt : NumV → NumV → Bool
  | .nan, _ => false
  | _, .nan => false
  | .q a, .q b => decide (a < b)
  | .q _, .pinf => true
  | .q _, .ninf => false
  | .ninf, .ninf => false
  | .ninf, _ => true
  | .pinf, _ => false

/-- Numeric `<=`: like `<` with equality, still false around NaN. -/
def numLe : NumV → NumV → Bool
  | .nan, _ => false
  | _, .nan => false
  | .q a, .q b => decide (a ≤ b)
  | .q _, .pinf => true
  | .q _, .ninf => false
  | .ninf, _ => true
  | .pinf, .pinf => true
  | .pinf, _ => false

mutual

/-- Python `<`: numbers by value, strings lexicographically, lists and
tuples lexicographically (first pair that is not `==` decides),
everything else raises TypeError. -/
def pyLt (a b : PyVal) : Except TErr Bool :=
  match toNum a, toNum b with
  | some x, some y => .ok (numLt x y)
  | _, _ =>
    match a, b with
    | .str s, .str t => .ok (decide (s < t))
    | .list xs, .list ys => pyLtList xs ys
    | .tuple xs, .tuple ys => pyLtList xs ys
    | _, _ => .error (.py "TypeError")

/-- Sequence `<`: skip `==` pairs, decide at the first mismatch, compare
lengths when one sequence is a prefix of the other. -/
def pyLtList : List PyVal → List PyVal → Except TErr Bool
  | [], [] => .ok false
  | [], _ :: _ => .ok true
  | _ :: _, [] => .ok false
  | x :: xs, y :: ys => if pyEq x y then pyLtList xs ys else pyLt x y

end

mutual

/-- Python `<=`: as `<`, applied to the first mismatching pair. -/
def pyLe (a b : PyVal) : Except TErr Bool :=
  match toNum a, toNum b with
  | some x, some y => .ok (numLe x y)
  | _, _ =>
    match a, b with
    | .str s, .str t => .ok (decide (s < t ∨ s = t))
    | .list xs, .list ys => pyLeList xs ys
    | .tuple xs, .tuple ys => pyLeList xs ys
    | _, _ => .error (.py "TypeError")

/-- Sequence `<=`: skip `==` pairs, decide at the first mismatch. -/
def pyLeList : List PyVal → List PyVal → Except TErr Bool
  | [], _ => .ok true
  | _ :: _, [] => .ok false
  | x :: xs, y :: ys => if pyEq x y then pyLeList xs ys else pyLe x y

end

/-- The expression shapes of the tinder claims: literals (Constant and
String), Number (stored as a parsed float, transmuted to int when whole),
Identifier (an environment read), the AbstractBinary operators of
__init__.py, and the short-circuit booleans. -/
inductive Expr where
  | lit (v : PyVal)
  | num (q : Rat)
  | ident (name : String)
  | add (l r : Expr)
  | sub (l r : Expr)
  | mul (l r : Expr)
  | div (l r : Expr)
  | lt (l r : Expr)
  | gt (l r : Expr)
  | le (l r : Expr)
  | ge (l r : Expr)
  | eqE (l r : Expr)
  | neE (l r : Expr)
  | orE (l r : Expr)
  | andE (l r : Expr)
  | notE (r : Expr)

/-- Kindling.transmute for expressions, against an environment protocol:
reads only, left operand first; `or`/`and` short-circuit and return an
operand (not a boolean), `Or` falls through to None when both operands
are falsy; `a > b` and `a >= b` are the reflected comparisons. -/
def evalExpr (E : EnvOps σ) : Expr → σ → Except TErr PyVal
  | .lit v, _ => .ok v
  | .num q, _ => if q.den = 1 then .ok (.int q.num) else .ok (.float (.fin q))
  | .ident n, env =>
    match E.get env n with
    | .ok v => .ok v
    | .error e => .error (.cruc e)
  | .add l r, env =>
    match evalExpr E l env with
    | .error e => .error e
    | .ok a =>
      match evalExpr E r env with
      | .error e => .error e
      | .ok b => pyAdd a b
  | .sub l r, env =>
    match evalExpr E l env with
    | .error e => .error e
    | .ok a =>
      match evalExpr E r env with
      | .error e => .error e
      | .ok b => pySub a b
  | .mul l r, env =>
    match evalExpr E l env with
    | .error e => .error e
    | .ok a =>
      match evalExpr E r env with
      | .error e => .error e
      | .ok b => pyMul a b
  | .div l r, env =>
    match evalExpr E l env with
    | .error e => .error e
    | .ok a =>
      match evalExpr E r env with
      | .error e => .error e
      | .ok b => pyDiv a b
  | .lt l r, env =>
    match evalExpr E l env with
    | .error e => .error e
    | .ok a =>
      match evalExpr E r env with
      | .error e => .error e
      | .ok b =>
        match pyLt a b with
        | .ok c => .ok (.bool c)
        | .error e => .error e
  | .gt l r, env =>
    match evalExpr E l env with
    | .error e => .error e
    | .ok a =>
      match evalExpr E r env with
      | .error e => .error e
      | .ok b =>
        match pyLt b a with
        | .ok c => .ok (.bool c)
        | .error e => .error e
  | .le l r, env =>
    match evalExpr E l env with
    | .error e => .error e
    | .ok a =>
      match evalExpr E r env with
      | .error e => .error e
      | .ok b =>
        match pyLe a b with
        | .ok c => .ok (.bool c)
        | .error e => .error e
  | .ge l r, env =>
    match evalExpr E l env with
    | .error e => .error e
    | .ok a =>
      match evalExpr E r env with
      | .error e => .error e
      | .ok b =>
        match pyLe b a with
        | .ok c => .ok (.bool c)
        | .error e => .error e
  | .eqE l r, env =>
    match evalExpr E l env with
    | .error e => .error e
    | .ok a =>
      match evalExpr E r env with
      | .error e => .error e
      | .ok b => .ok (.bool (pyEq a b))
  | .neE l r, env =>
    match evalExpr E l env with
    | .error e => .error e
    | .ok a =>
      match evalExpr E r env with
      | .error e => .error e
      | .ok b => .ok (.bool (!pyEq a b))
  | .orE l r, env =>
    match evalExpr E l env with
    | .error e => .error e
    | .ok a =>
      if Torchbox.pyTruthy a then .ok a
      else
        match evalExpr E r env with
        | .error e => .error e
        | .ok b => if Torchbox.pyTruthy b then .ok b else .ok .none
  | .andE l r, env =>
    match evalExpr E l env with
    | .error e => .error e
    | .ok a => if Torchbox.pyTruthy a then evalExpr E r env else .ok a
  | .notE r, env =>
    match evalExpr E r env with
    | .error e => .error e
    | .ok b => .ok (.bool (!Torchbox.pyTruthy b))

/-- The expression mentions the identifier (it reads that environment
name when transmuted). -/
def reads : Expr → String → Bool
  | .lit _, _ => false
  | .num _, _ => false
  | .ident n, k => n == k
  | .add l r, k => reads l k || reads r k
  | .sub l r, k => reads l k || reads r k
  | .mul l r, k => reads l k || reads r k
  | .div l r, k => reads l k || reads r k
  | .lt l r, k => reads l k || reads r k
  | .gt l r, k => reads l k || reads r k
  | .le l r, k => reads l k || reads r k
  | .ge l r, k => reads l k || reads r k
  | .eqE l r, k => reads l k || reads r k
  | .neE l r, k => reads l k || reads r k
  | .orE l r, k => reads l k || reads r k
  | .andE l r, k => reads l k || reads r k
  | .notE r, k => reads r k

end Tinder

namespace Tinder

/-- The outcome of transmuting one instruction: fall through to the next
line, raise InterruptHandler (registering a handler), or raise a runtime
error.  The environment reflects every write made before the raise. -/
inductive StAct (σ : Type) where
  | next (env : σ)
  | reg (exc : String) (val : PyVal) (env : σ)
  | err (e : TErr) (env : σ)

/-- The instruction shapes of the tinder claims: Set, Return, Jump,
Interrupt and Goto (without an `otherwise`, a no-op). -/
inductive Stmt where
  | set (pairs : List (String × Expr))
  | ret
  | jump (e : Expr)
  | interrupt (exc : String) (j : Expr)
  | goto

/-- Set.transmute: for each (identifier, value) pair in order, evaluate
that pair's value and write the identifier at once, so later values see
earlier writes; an error stops the loop with the writes made so far. -/
def setTransmute (E : EnvOps σ) : List (String × Expr) → σ → StAct σ
  | [], env => .next env
  | (k, v) :: rest, env =>
    match evalExpr E v env with
    | .error e => .err e env
    | .ok val =>
      match E.set env k val with
      | .error ce => .err (.cruc ce) env
      | .ok env1 => setTransmute E rest env1

/-- All value expressions of a Set evaluated against one fixed
environment, before any write (the spec's reading of Set; compare
setTransmute, which is the code's). -/
def evalAll (E : EnvOps σ) : List (String × Expr) → σ → Except TErr (List (String × PyVal))
  | [], _ => .ok []
  | (k, v) :: rest, env =>
    match evalExpr E v env with
    | .error e => .error e
    | .ok val =>
      match evalAll E rest env with
      | .error e => .error e
      | .ok l => .ok ((k, val) :: l)

/-- Write a list of already-evaluated values in order. -/
def writeAll (E : EnvOps σ) : List (String × PyVal) → σ → StAct σ
  | [], env => .next env
  | (k, val) :: rest, env =>
    match E.set env k val with
    | .error ce => .err (.cruc ce) env
    | .ok env1 => writeAll E rest env1

/-- The spec's description of Set: evaluate all values first, then write
each identifier.  Modelled from the spec sentence for comparison with
setTransmute. -/
def setSpecTransmute (E : EnvOps σ) (pairs : List (String × Expr)) (env : σ) : StAct σ :=
  match evalAll E pairs env with
  | .error e => .err e env
  | .ok kvs => writeAll E kvs env

/-- Return.transmute: `env.set("__JUMPED__", env.get("__LINE__"))`, with
any CrucibleError converted to the no-return-target TinderBurn.  It
writes __JUMPED__ and never writes __LINE__. -/
def retTransmute (E : EnvOps σ) (env : σ) : Except TErr σ :=
  match E.get env "__LINE__" with
  | .error _ => .error (.burn "No return target found in environment.")
  | .ok v =>
    match E.set env "__JUMPED__" v with
    | .error _ => .error (.burn "No return target found in environment.")
    | .ok env1 => .ok env1

/-- A value passes `isinstance(line, (int, float))` (bool subclasses int). -/
def isNumberV : PyVal → Bool
  | .bool _ => true
  | .int _ => true
  | .float _ => true
  | _ => false

/-- Jump.transmute: evaluate the target, save the current __LINE__ into
__JUMPED__, set __LINE__ to target + 1.  A CrucibleError inside the try
becomes a TinderBurn; `line + 1` on a non-number raises TypeError before
the dead isinstance check is reached.  The error carries the environment
as written so far. -/
def jumpTransmute (E : EnvOps σ) (idE : Expr) (env : σ) : Except (TErr × σ) σ :=
  match evalExpr E idE env with
  | .error (.cruc _) => .error (.burn "CrucibleError", env)
  | .error e => .error (e, env)
  | .ok line =>
    match E.get env "__LINE__" with
    | .error _ => .error (.burn "CrucibleError", env)
    | .ok cur =>
      match E.set env "__JUMPED__" cur with
      | .error _ => .error (.burn "CrucibleError", env)
      | .ok env1 =>
        match pyAdd line (.int 1) with
        | .error e => .error (e, env1)
        | .ok line1 =>
          match E.set env1 "__LINE__" line1 with
          | .error _ => .error (.burn "CrucibleError", env1)
          | .ok env2 =>
            if isNumberV line then .ok env2
            else .error (.burn "Jump target is not a number", env2)

/-- One instruction transmuted: Set and the control keywords as in the
source; Interrupt evaluates its jump target and raises InterruptHandler;
Goto does nothing. -/
def transmuteStmt (E : EnvOps σ) : Stmt → σ → StAct σ
  | .set pairs, env => setTransmute E pairs env
  | .ret, env =>
    match retTransmute E env with
    | .ok env1 => .next env1
    | .error e => .err e env
  | .jump e, env =>
    match jumpTransmute E e env with
    | .ok env1 => .next env1
    | .error (e2, env1) => .err e2 env1
  | .interrupt exc j, env =>
    match evalExpr E j env with
    | .error e => .err e env
    | .ok v => .reg exc v env
  | .goto, env => .next env

/-- The run loop's mutable state: the environment and the interrupt
table built so far (a newer registration shadows an older one, as dict
assignment does). -/
structure TinderState (σ : Type) where
  env : σ
  interrupts : List (String × PyVal)

/-- Interrupt-table lookup by exception class name. -/
def lookupStr : List (String × PyVal) → String → Option PyVal
  | [], _ => Option.none
  | (k, v) :: rest, n => if k = n then some v else lookupStr rest n

/-- How a fueled run ends: Halted (the loop broke out of range), a
propagated error, or out of fuel (the Python loop would still be
running). -/
inductive RunOut (σ : Type) where
  | halted (st : TinderState σ)
  | err (e : TErr) (st : TinderState σ)
  | fuel (st : TinderState σ)

/-- The run ended with Halted. -/
def RunOut.isHalted : RunOut σ → Bool
  | .halted _ => true
  | _ => false

/-- Tinder.run, fueled, accumulating the index of every instruction the
loop dispatches.  Each iteration: read __LINE__, break out of range
(Halted), write __LINE__ + 1 back, transmute the instruction; an
InterruptHandler registers a handler; any other error is looked up in
the interrupt table by class name and on a hit
`Jump(Constant(handler)).transmute(env)` runs and the loop continues,
otherwise the error is wrapped in a TinderBurn. -/
def runN (E : EnvOps σ) (prog : List Stmt) : Nat → TinderState σ → List Nat → List Nat × RunOut σ
  | 0, st, tr => (tr, .fuel st)
  | Nat.succ fuel, st, tr =>
    match E.get st.env "__LINE__" with
    | .error e => (tr, .err (.cruc e) st)
    | .ok lv =>
      match lv with
      | .int i =>
        if i < 0 ∨ (prog.length : Int) ≤ i then (tr, .halted st)
        else
          match E.set st.env "__LINE__" (.int (i + 1)) with
          | .error ce =>
            match lookupStr st.interrupts (errName (.cruc ce)) with
            | Option.none =>
              (tr ++ [i.toNat], .err (.burn "Run failed on line") st)
            | some jv =>
              match jumpTransmute E (.lit jv) st.env with
              | .ok env3 => runN E prog fuel ⟨env3, st.interrupts⟩ (tr ++ [i.toNat])
              | .error (e2, env3) => (tr ++ [i.toNat], .err e2 ⟨env3, st.interrupts⟩)
          | .ok env1 =>
            match transmuteStmt E (prog.getD i.toNat .goto) env1 with
            | .next env2 => runN E prog fuel ⟨env2, st.interrupts⟩ (tr ++ [i.toNat])
            | .reg exc v env2 =>
              runN E prog fuel ⟨env2, (exc, v) :: st.interrupts⟩ (tr ++ [i.toNat])
            | .err e env2 =>
              match lookupStr st.interrupts (errName e) with
              | Option.none =>
                (tr ++ [i.toNat], .err (.burn "Run failed on line") ⟨env2, st.interrupts⟩)
              | some jv =>
                match jumpTransmute E (.lit jv) env2 with
                | .ok env3 => runN E prog fuel ⟨env3, st.interrupts⟩ (tr ++ [i.toNat])
                | .error (e2, env3) => (tr ++ [i.toNat], .err e2 ⟨env3, st.interrupts⟩)
      | _ => (tr, .err (.py "TypeError") st)

/-- Tinder.run's entry: seed __LINE__ with 0 when absent, then loop with
an empty interrupt table. -/
def runTinder (E : EnvOps σ) (prog : List Stmt) (fuel : Nat) (env : σ) : List Nat × RunOut σ :=
  if E.mem env "__LINE__" then runN E prog fuel ⟨env, []⟩ []
  else
    match E.set env "__LINE__" (.int 0) with
    | .error ce => ([], .err (.cruc ce) ⟨env, []⟩)
    | .ok env1 => runN E prog fuel ⟨env1, []⟩ []

/-- The identifier string as the crucible sees it: Python indexes the
string itself, so the path is its characters, one single-character key
per step. -/
def strPath (s : String) : List Key :=
  s.toList.map (fun c => Key.s (String.singleton c))

/-- The tinder Crucible as the environment of a run: get/set/in receive
the identifier string, which Crucible.set, Crucible.get and _walk_path
consume as a character sequence.  A walk that ends on the scope object
itself (only possible for the empty name) has no value reading. -/
def crucibleOps : EnvOps Crucible :=
  ⟨fun c n =>
     match c.get (strPath n) with
     | .ok (.val v) => .ok v
     | .ok (.cru _) => .error .valueNotFound
     | .error e => .error e,
   fun c n v => c.set (strPath n) v,
   fun c n =>
     match c.walkPath (strPath n) with
     | .ok _ => true
     | .error _ => false⟩

/-- The binary operator symbols of the PRECEDENCE table. -/
inductive BOp where
  | plus
  | minus
  | times
  | slash
  | lAngle
  | rAngle
  | lAngleEq
  | rAngleEq
  | eqEq
  | bangEq
deriving DecidableEq, Repr

/-- The PRECEDENCE table of __init__.py (lower binds tighter): *, / at 1;
+, - at 2; comparisons at 3; ==, != at 4. -/
def PRECEDENCE : BOp → Nat
  | .plus => 2
  | .minus => 2
  | .times => 1
  | .slash => 1
  | .lAngle => 3
  | .rAngle => 3
  | .lAngleEq => 3
  | .rAngleEq => 3
  | .eqEq => 4
  | .bangEq => 4

/-- apply_operator's node construction for each operator symbol. -/
def applyOp : BOp → Expr → Expr → Expr
  | .plus, l, r => .add l r
  | .minus, l, r => .sub l r
  | .times, l, r => .mul l r
  | .slash, l, r => .div l r
  | .lAngle, l, r => .lt l r
  | .rAngle, l, r => .gt l r
  | .lAngleEq, l, r => .le l r
  | .rAngleEq, l, r => .ge l r
  | .eqEq, l, r => .eqE l r
  | .bangEq, l, r => .neE l r

/-- The inner while of Binary.__init__: as long as the operator stack's
top has precedence ≤ the current operator's, pop it and fold the top two
operands (popping an empty operand stack is Python's IndexError). -/
def shuntDrain (cur : BOp) : List Expr → List BOp → Option (List Expr × List BOp)
  | st, [] => some (st, [])
  | st, top :: ops =>
    if PRECEDENCE top ≤ PRECEDENCE cur then
      match st with
      | r :: l :: rest => shuntDrain cur (applyOp top l r :: rest) ops
      | _ => Option.none
    else some (st, top :: ops)

/-- The main loop of Binary.__init__: push each operand, and for each
operand that still has a matching operator, drain by precedence and push
the operator. -/
def shuntLoop : List Expr → List BOp → List Expr → List BOp → Option (List Expr × List BOp)
  | [], _, st, ops => some (st, ops)
  | operand :: more, operators, st, ops =>
    match operators with
    | [] => shuntLoop more [] (operand :: st) ops
    | cur :: restOps =>
      match shuntDrain cur (operand :: st) ops with
      | Option.none => Option.none
      | some (st2, ops2) => shuntLoop more restOps st2 (cur :: ops2)

/-- The final while of Binary.__init__: fold the remaining operators. -/
def drainAll : List Expr → List BOp → Option (List Expr)
  | st, [] => some st
  | r :: l :: rest, op :: ops => drainAll (applyOp op l r :: rest) ops
  | _, _ :: _ => Option.none

/-- Binary(*ops): shunting-yard over the operand and operator lists; the
finished tree replaces the node (SymbolReplace), a malformed stack is an
IndexError from pop, and a final stack that is not a single tree is a
TinderBurn. -/
def binaryBuild (operands : List Expr) (operators : List BOp) : Except TErr Expr :=
  match shuntLoop operands operators [] [] with
  | Option.none => .error (.py "IndexError")
  | some (st, ops) =>
    match drainAll st ops with
    | Option.none => .error (.py "IndexError")
    | some [e] => .ok e
    | some _ => .error (.burn "Invalid expression tree construction")

end Tinder

namespace Tinder

/-- The interrupt-dispatch example program:
0: `interrupt ZeroDivisionError 2` (register handler label 2),
1: `set z to 1 / 0` (raises ZeroDivisionError),
2: a Goto label, 3: `set x to 1`. -/
def interruptProg : List Stmt :=
  [.interrupt "ZeroDivisionError" (.lit (.int 2)),
   .set [("z", .div (.lit (.int 1)) (.lit (.int 0)))],
   .goto,
   .set [("x", .lit (.int 1))]]

end Tinder

namespace Tinder

/-- Lookup of a different name is unchanged by a store write. -/
theorem sget_sinsert_ne (st : SStore) (k n : String) (v : PyVal) (h : n ≠ k) :
    sget (sinsert k v st) n = sget st n := by
  induction st with
  | nil => simp [sinsert, sget, Ne.symm h]
  | cons p rest ih =>
    obtain ⟨k2, w⟩ := p
    by_cases hk : k2 = k
    · subst hk
      simp [sinsert, sget, Ne.symm h]
    · simp [sinsert, hk, sget, ih]

/-- Lookup of the written name finds the written value. -/
theorem sget_sinsert_self (k : String) (v : PyVal) (st : SStore) :
    sget (sinsert k v st) k = .ok v := by
  induction st with
  | nil => simp [sinsert, sget]
  | cons p rest ih =>
    obtain ⟨k2, w⟩ := p
    by_cases hk : k2 = k
    · subst hk
      simp [sinsert, sget]
    · simp [sinsert, hk, sget, ih]

/-- The plain store's get is sget. -/
theorem simpleOps_get : simpleOps.get = sget := rfl

/-- The plain store's set is sinsert and always succeeds. -/
theorem simpleOps_set (st : SStore) (n : String) (v : PyVal) :
    simpleOps.set st n v = .ok (sinsert n v st) := rfl

/-- Expression evaluation is invariant under a write to a name the
expression does not read. -/
theorem evalExpr_sinsert (e : Expr) (k : String) (v : PyVal) (st : SStore)
    (h : reads e k = false) :
    evalExpr simpleOps e (sinsert k v st) = evalExpr simpleOps e st := by
  induction e with
  | lit w => rfl
  | num q => rfl
  | ident n =>
    simp only [reads, beq_eq_false_iff_ne, ne_eq] at h
    simp [evalExpr, simpleOps, sget_sinsert_ne st k n v h]
  | add l r ihl ihr =>
    simp only [reads, Bool.or_eq_false_iff] at h
    simp [evalExpr, ihl h.1, ihr h.2]
  | sub l r ihl ihr =>
    simp only [reads, Bool.or_eq_false_iff] at h
    simp [evalExpr, ihl h.1, ihr h.2]
  | mul l r ihl ihr =>
    simp only [reads, Bool.or_eq_false_iff] at h
    simp [evalExpr, ihl h.1, ihr h.2]
  | div l r ihl ihr =>
    simp only [reads, Bool.or_eq_false_iff] at h
    simp [evalExpr, ihl h.1, ihr h.2]
  | lt l r ihl ihr =>
    simp only [reads, Bool.or_eq_false_iff] at h
    simp [evalExpr, ihl h.1, ihr h.2]
  | gt l r ihl ihr =>
    simp only [reads, Bool.or_eq_false_iff] at h
    simp [evalExpr, ihl h.1, ihr h.2]
  | le l r ihl ihr =>
    simp only [reads, Bool.or_eq_false_iff] at h
    simp [evalExpr, ihl h.1, ihr h.2]
  | ge l r ihl ihr =>
    simp only [reads, Bool.or_eq_false_iff] at h
    simp [evalExpr, ihl h.1, ihr h.2]
  | eqE l r ihl ihr =>
    simp only [reads, Bool.or_eq_false_iff] at h
    simp [evalExpr, ihl h.1, ihr h.2]
  | neE l r ihl ihr =>
    simp only [reads, Bool.or_eq_false_iff] at h
    simp [evalExpr, ihl h.1, ihr h.2]
  | orE l r ihl ihr =>
    simp only [reads, Bool.or_eq_false_iff] at h
    simp [evalExpr, ihl h.1, ihr h.2]
  | andE l r ihl ihr =>
    simp only [reads, Bool.or_eq_false_iff] at h
    simp [evalExpr, ihl h.1, ihr h.2]
  | notE r ih =>
    simp only [reads] at h
    simp [evalExpr, ih h]

/-- Eval-all of a Set is invariant under a write to a name none of the
value expressions read. -/
theorem evalAll_sinsert (pairs : List (String × Expr)) (k : String) (v : PyVal) (st : SStore)
    (h : ∀ p ∈ pairs, reads p.2 k = false) :
    evalAll simpleOps pairs (sinsert k v st) = evalAll simpleOps pairs st := by
  induction pairs with
  | nil => rfl
  | cons p rest ih =>
    obtain ⟨k1, e1⟩ := p
    have h1 : reads e1 k = false := h (k1, e1) (List.mem_cons_self _ _)
    have h2 : ∀ q ∈ rest, reads q.2 k = false := fun q hq => h q (List.mem_cons_of_mem _ hq)
    simp [evalAll, evalExpr_sinsert e1 k v st h1, ih h2]

/-- C1 (amended): Set transmutes its pairs one at a time — each value is
evaluated against the environment holding the earlier pairs' writes, then
its identifier is written at once.  When no value expression reads any of
the assigned identifiers (and the values all evaluate), this coincides
with the spec's evaluate-all-then-write reading; with such reads it does
not, and the swap is unsafe (see the counterexample). -/
theorem set_values_first (pairs : List (String × Expr)) (st : SStore)
    (l : List (String × PyVal))
    (hdisj : ∀ p ∈ pairs, ∀ k ∈ pairs.map Prod.fst, reads p.2 k = false)
    (hok : evalAll simpleOps pairs st = .ok l) :
    setTransmute simpleOps pairs st = setSpecTransmute simpleOps pairs st := by
  induction pairs generalizing st l with
  | nil => rfl
  | cons p rest ih =>
    obtain ⟨k, ve⟩ := p
    rw [evalAll] at hok
    cases hev : evalExpr simpleOps ve st with
    | error e => rw [hev] at hok; exact absurd hok (by simp)
    | ok val =>
      rw [hev] at hok
      cases hrest : evalAll simpleOps rest st with
      | error e => rw [hrest] at hok; exact absurd hok (by simp)
      | ok l2 =>
        have hk : k ∈ ((k, ve) :: rest).map Prod.fst := by simp
        have hreadk : ∀ q ∈ rest, reads q.2 k = false :=
          fun q hq => hdisj q (List.mem_cons_of_mem _ hq) k hk
        have hdisj2 : ∀ p ∈ rest, ∀ k2 ∈ rest.map Prod.fst, reads p.2 k2 = false :=
          fun p hp k2 hk2 =>
            hdisj p (List.mem_cons_of_mem _ hp) k2 (by simp at hk2 ⊢; exact Or.inr hk2)
        have hok2 : evalAll simpleOps rest (sinsert k val st) = .ok l2 := by
          rw [evalAll_sinsert rest k val st hreadk, hrest]
        have hIH := ih (sinsert k val st) l2 hdisj2 hok2
        rw [setTransmute, hev]
        simp only [simpleOps_set]
        rw [hIH]
        simp only [setSpecTransmute, hok2, evalAll, hev, hrest, writeAll, simpleOps_set]

/-- C1 witness: two pairs whose values read no assigned identifier — the
interleaved and evaluate-first semantics agree. -/
theorem set_values_first_witness :
    evalAll simpleOps [("a", Expr.num 1), ("b", Expr.ident "c")] [("c", PyVal.int 3)]
      = .ok [("a", PyVal.int 1), ("b", PyVal.int 3)]
    ∧ setTransmute simpleOps [("a", Expr.num 1), ("b", Expr.ident "c")] [("c", PyVal.int 3)]
      = setSpecTransmute simpleOps [("a", Expr.num 1), ("b", Expr.ident "c")] [("c", PyVal.int 3)] :=
  ⟨rfl, set_values_first _ _ _ (by decide) rfl⟩

/-- C1 counterexample: `set a, b to b, a` over {a: 1, b: 2}.  The code's
interleaving writes a := 2 first and then evaluates `a` for b, giving
{a: 2, b: 2}; the spec's evaluate-all-first reading gives the swap
{a: 2, b: 1}.  The two semantics differ, and the swap is not safe. -/
theorem set_interleaves_counterexample :
    setTransmute simpleOps [("a", Expr.ident "b"), ("b", Expr.ident "a")]
        [("a", PyVal.int 1), ("b", PyVal.int 2)]
      = .next [("a", PyVal.int 2), ("b", PyVal.int 2)]
    ∧ setSpecTransmute simpleOps [("a", Expr.ident "b"), ("b", Expr.ident "a")]
        [("a", PyVal.int 1), ("b", PyVal.int 2)]
      = .next [("a", PyVal.int 2), ("b", PyVal.int 1)] :=
  ⟨rfl, rfl⟩

/-- C2: Return copies in the wrong direction.  Whenever __LINE__ is
readable, Return.transmute writes __JUMPED__ := __LINE__ and leaves
__LINE__ untouched — the reverse of the claimed __LINE__ := __JUMPED__,
so control never resumes at the recorded instruction. -/
theorem return_writes_jumped_from_line (st : SStore) (v : PyVal)
    (h : sget st "__LINE__" = .ok v) :
    retTransmute simpleOps st = .ok (sinsert "__JUMPED__" v st)
    ∧ sget (sinsert "__JUMPED__" v st) "__LINE__" = sget st "__LINE__" := by
  refine ⟨?_, sget_sinsert_ne st "__JUMPED__" "__LINE__" v (by decide)⟩
  rw [retTransmute]
  simp [simpleOps, h]

/-- C2 witness: with __LINE__ = 5 and __JUMPED__ = 2, Return leaves
__LINE__ at 5 (the claim expects 2) and overwrites __JUMPED__ with 5. -/
theorem return_writes_jumped_witness :
    retTransmute simpleOps [("__LINE__", PyVal.int 5), ("__JUMPED__", PyVal.int 2)]
      = .ok [("__LINE__", PyVal.int 5), ("__JUMPED__", PyVal.int 5)]
    ∧ sget [("__LINE__", PyVal.int 5), ("__JUMPED__", PyVal.int 5)] "__LINE__"
      = .ok (PyVal.int 5) :=
  ⟨(return_writes_jumped_from_line
      [("__LINE__", PyVal.int 5), ("__JUMPED__", PyVal.int 2)] (.int 5) rfl).1, rfl⟩

/-- C3 (amended): when the instruction at index i raises an error whose
class name has a registered handler value L, the run loop performs
`Jump(Constant(L))`, which saves the current __LINE__ into __JUMPED__ and
sets __LINE__ to L + 1 — so the instruction executed next is the one at
index L + 1, not index L. -/
theorem interrupt_resumes_after_label (prog : List Stmt) (fuel : Nat)
    (st : TinderState SStore) (tr : List Nat) (i L : Int) (e : TErr)
    (env2 : SStore) (w : PyVal)
    (hline : sget st.env "__LINE__" = .ok (.int i))
    (hlo : 0 ≤ i) (hhi : i < (prog.length : Int))
    (hrun : transmuteStmt simpleOps (prog.getD i.toNat .goto)
        (sinsert "__LINE__" (.int (i + 1)) st.env) = .err e env2)
    (hint : lookupStr st.interrupts (errName e) = some (.int L))
    (hw : sget env2 "__LINE__" = .ok w) :
    runN simpleOps prog (fuel + 1) st tr
      = runN simpleOps prog fuel
          ⟨sinsert "__LINE__" (.int (L + 1)) (sinsert "__JUMPED__" w env2), st.interrupts⟩
          (tr ++ [i.toNat])
    ∧ sget (sinsert "__LINE__" (.int (L + 1)) (sinsert "__JUMPED__" w env2)) "__LINE__"
      = .ok (.int (L + 1)) := by
  refine ⟨?_, sget_sinsert_self _ _ _⟩
  rw [runN]
  simp only [simpleOps_get, hline]
  rw [if_neg (by omega)]
  simp only [simpleOps_set, hrun, hint, jumpTransmute, evalExpr, simpleOps_get, hw,
    pyAdd, intOfVal, isNumberV, if_true]

/-- C3 witness: the four-line program with a ZeroDivisionError handler
registered at label 2: the raise at index 1 resumes with __LINE__ = 3. -/
theorem interrupt_resumes_witness :
    runN simpleOps interruptProg 3
        ⟨[("__LINE__", PyVal.int 1)], [("ZeroDivisionError", PyVal.int 2)]⟩ [0]
      = runN simpleOps interruptProg 2
          ⟨[("__LINE__", PyVal.int 3), ("__JUMPED__", PyVal.int 2)],
           [("ZeroDivisionError", PyVal.int 2)]⟩ [0, 1]
    ∧ sget [("__LINE__", PyVal.int 3), ("__JUMPED__", PyVal.int 2)] "__LINE__"
      = .ok (PyVal.int 3) :=
  interrupt_resumes_after_label interruptProg 2
    ⟨[("__LINE__", PyVal.int 1)], [("ZeroDivisionError", PyVal.int 2)]⟩ [0] 1 2
    (.py "ZeroDivisionError") [("__LINE__", PyVal.int 2)] (.int 2)
    rfl (by decide) (by decide) rfl rfl rfl

/-- C3 counterexample: running the program whose handler label is 2 — the
loop dispatches instructions 0, 1 and then 3: the instruction after the
handled ZeroDivisionError is at index 3 = L + 1, and the instruction at
the registered index 2 is never the next one executed. -/
theorem interrupt_label_counterexample :
    (runTinder simpleOps interruptProg 10 []).1 = [0, 1, 3]
    ∧ (runTinder simpleOps interruptProg 10 []).2.isHalted = true :=
  ⟨rfl, rfl⟩

/-- C8: Or short-circuits and returns the first truthy operand value
itself (not a boolean): whenever the left operand evaluates to a truthy
value, that value is the result for every right operand; and
`set y to false or "fallback" or "ignored"` stores "fallback" in y. -/
theorem or_returns_first_truthy :
    (∀ (l r : Expr) (env : SStore) (v : PyVal),
        evalExpr simpleOps l env = .ok v → Torchbox.pyTruthy v = true →
        evalExpr simpleOps (.orE l r) env = .ok v)
    ∧ setTransmute simpleOps
        [("y", .orE (.orE (.lit (.bool false)) (.lit (.str "fallback")))
            (.lit (.str "ignored")))] []
      = .next [("y", PyVal.str "fallback")]
    ∧ sget [("y", PyVal.str "fallback")] "y" = .ok (.str "fallback") := by
  refine ⟨?_, rfl, rfl⟩
  intro l r env v h ht
  simp [evalExpr, h, ht]

/-- C9: the Binary constructor's shunting-yard over 1 + 2 * 3 builds
Add(1, Multiply(2, 3)) (the precedence table binds * tighter than +) and
that tree evaluates to the int 7; but running `Set("x", tree)` against a
fresh tinder Crucible cannot store it — Crucible.set consumes the plain
identifier string as a path, walks `path[:-1]` to the Crucible object
itself and rejects every top-level write, and Crucible.get on the fresh
crucible likewise fails — so env.get("x") == 7 is unreachable. -/
theorem binary_precedence_and_run :
    binaryBuild [.num 1, .num 2, .num 3] [.plus, .times]
      = .ok (.add (.num 1) (.mul (.num 2) (.num 3)))
    ∧ evalExpr simpleOps (.add (.num 1) (.mul (.num 2) (.num 3))) [] = .ok (.int 7)
    ∧ (∀ value : PyVal,
        crucibleOps.set (Crucible.mk [] Option.none 0 []) "x" value = .error .baseError)
    ∧ crucibleOps.get (Crucible.mk [] Option.none 0 []) "x" = .error .valueNotFound := by
  refine ⟨rfl, rfl, ?_, ?_⟩
  · intro value
    show Crucible.set _ (strPath "x") _ = _
    have hp : strPath "x" = [Key.s "x"] := rfl
    rw [hp, Crucible.set]
    simp [Crucible.writeToBase_eq, Crucible.parent, Crucible.access, WRITE_TO_BASE,
      NO_SHADOWING, shadowed, Crucible.writeToSelf, splitLast, Crucible.constants, READ_ONLY]
  · show (match Crucible.get _ (strPath "x") with
      | .ok (.val v) => Except.ok v
      | .ok (.cru _) => Except.error CErr.valueNotFound
      | .error e => Except.error e) = Except.error CErr.valueNotFound
    have hp : strPath "x" = [Key.s "x"] := rfl
    rw [hp, Crucible.get]
    simp [Crucible.readFromBase_eq, Crucible.parent, Crucible.access, READ_FROM_BASE,
      Crucible.walkPath, Crucible.vars, lookupKey]

end Tinder
